import Mathlib

/-!
Verification of the hex bubble-grid slingshot game engine
(components/GeminiSlingshot.tsx and services/geminiService.ts).

The game code is shallowly embedded: pixel geometry lives in the ring
ℚ[√3] (row height is BUBBLE_RADIUS·√3), all square roots in comparisons
are replaced by the equivalent comparisons of squares, Javascript arrays
become lists, and in-place mutation becomes pure state passing.
-/

/-! ## Constants (top of GeminiSlingshot.tsx) -/

def PINCH_THRESHOLD : ℚ := 5 / 100
def GRAVITY : ℚ := 0
def FRICTION : ℚ := 998 / 1000
def BUBBLE_RADIUS : ℚ := 22
def GRID_COLS : ℕ := 12
def GRID_ROWS : ℕ := 8
def SLINGSHOT_BOTTOM_OFFSET : ℚ := 220
def MAX_DRAG_DIST : ℚ := 180
def MIN_FORCE_MULT : ℚ := 15 / 100
def MAX_FORCE_MULT : ℚ := 45 / 100

/-! ## Colors and the scoring table COLOR_CONFIG -/

inductive BubbleColor where
  | red
  | blue
  | green
  | yellow
  | purple
  | orange
deriving DecidableEq

/-- points field of COLOR_CONFIG. -/
def COLOR_POINTS : BubbleColor → ℕ
  | .red => 100
  | .blue => 150
  | .green => 200
  | .yellow => 250
  | .purple => 300
  | .orange => 500

/-! ## The ring ℚ[√3]

Pixel y-coordinates are `BUBBLE_RADIUS + row · BUBBLE_RADIUS·√3`, so exact
pixel arithmetic lives in ℚ[√3].  `Q3.mk a b` denotes the real number
`a + b·√3`.  Order comparisons are decidable via a sign test on the two
rational coefficients, proved below to agree with the real order. -/

structure Q3 where
  a : ℚ
  b : ℚ
deriving DecidableEq

def Q3.ofRat (q : ℚ) : Q3 := ⟨q, 0⟩

instance : Add Q3 := ⟨fun x y => ⟨x.a + y.a, x.b + y.b⟩⟩

instance : Sub Q3 := ⟨fun x y => ⟨x.a - y.a, x.b - y.b⟩⟩

instance : Mul Q3 := ⟨fun x y => ⟨x.a * y.a + 3 * (x.b * y.b), x.a * y.b + x.b * y.a⟩⟩

instance : OfNat Q3 0 := ⟨Q3.ofRat 0⟩

noncomputable def Q3.toReal (x : Q3) : ℝ := (x.a : ℝ) + (x.b : ℝ) * Real.sqrt 3

/-- Sign test: is `a + b·√3` strictly positive? -/
def Q3.isPos (x : Q3) : Bool :=
  if 0 ≤ x.b then
    if 0 ≤ x.a then decide (0 < x.a ∨ 0 < x.b)
    else decide (x.a ^ 2 < 3 * x.b ^ 2)
  else
    decide (0 < x.a ∧ 3 * x.b ^ 2 < x.a ^ 2)

def Q3.ltQ (x y : Q3) : Prop := x.toReal < y.toReal

def Q3.leQ (x y : Q3) : Prop := x.toReal ≤ y.toReal

theorem Q3.sqrt3_pos : (0 : ℝ) < Real.sqrt 3 :=
  Real.sqrt_pos.mpr (by norm_num)

theorem Q3.toReal_add (x y : Q3) : (x + y).toReal = x.toReal + y.toReal := by
  show ((x.a + y.a : ℚ) : ℝ) + ((x.b + y.b : ℚ) : ℝ) * Real.sqrt 3 = _
  push_cast
  unfold Q3.toReal
  ring

theorem Q3.toReal_sub (x y : Q3) : (x - y).toReal = x.toReal - y.toReal := by
  show ((x.a - y.a : ℚ) : ℝ) + ((x.b - y.b : ℚ) : ℝ) * Real.sqrt 3 = _
  push_cast
  unfold Q3.toReal
  ring

theorem Q3.toReal_mul (x y : Q3) : (x * y).toReal = x.toReal * y.toReal := by
  show ((x.a * y.a + 3 * (x.b * y.b) : ℚ) : ℝ) +
      ((x.a * y.b + x.b * y.a : ℚ) : ℝ) * Real.sqrt 3 = _
  have h3 : Real.sqrt 3 * Real.sqrt 3 = 3 := Real.mul_self_sqrt (by norm_num)
  push_cast
  unfold Q3.toReal
  linear_combination (-((x.b : ℝ) * (y.b : ℝ))) * h3

theorem Q3.toReal_ofRat (q : ℚ) : (Q3.ofRat q).toReal = (q : ℝ) := by
  unfold Q3.toReal Q3.ofRat
  simp

theorem Q3.isPos_iff (x : Q3) : x.isPos = true ↔ 0 < x.toReal := by
  obtain ⟨a, b⟩ := x
  unfold Q3.isPos Q3.toReal
  simp only
  have hs := Q3.sqrt3_pos
  split_ifs with hb ha
  · -- 0 ≤ b, 0 ≤ a
    simp only [decide_eq_true_eq]
    constructor
    · rintro (h | h)
      · have : (0 : ℝ) ≤ (b : ℝ) * Real.sqrt 3 := by positivity
        have : (0 : ℝ) < (a : ℝ) := by exact_mod_cast h
        linarith
      · have hb2 : (0 : ℝ) < (b : ℝ) := by exact_mod_cast h
        have : (0 : ℝ) ≤ (a : ℝ) := by exact_mod_cast ha
        nlinarith
    · intro h
      by_contra hc
      push_neg at hc
      obtain ⟨h1, h2⟩ := hc
      have ea : a = 0 := le_antisymm h1 ha
      have eb : b = 0 := le_antisymm h2 hb
      rw [ea, eb] at h
      simp at h
  · -- 0 ≤ b, a < 0
    push_neg at ha
    simp only [decide_eq_true_eq]
    have hbR : (0 : ℝ) ≤ (b : ℝ) := by exact_mod_cast hb
    have haR : (a : ℝ) < 0 := by exact_mod_cast ha
    have key : (b : ℝ) * Real.sqrt 3 = Real.sqrt (3 * (b : ℝ) ^ 2) := by
      rw [show (3 : ℝ) * (b : ℝ) ^ 2 = ((b : ℝ)) ^ 2 * 3 by ring]
      rw [Real.sqrt_mul (by positivity), Real.sqrt_sq hbR]
    constructor
    · intro h
      have h2 : ((a : ℝ)) ^ 2 < 3 * (b : ℝ) ^ 2 := by exact_mod_cast h
      have hlt : -(a : ℝ) < Real.sqrt (3 * (b : ℝ) ^ 2) := by
        rw [show (3 : ℝ) * (b : ℝ) ^ 2 = (-(a : ℝ)) ^ 2 + (3 * (b : ℝ) ^ 2 - (a : ℝ) ^ 2) by ring]
        have hpos : (0 : ℝ) < 3 * (b : ℝ) ^ 2 - (a : ℝ) ^ 2 := by linarith
        nlinarith [Real.sq_sqrt (show (0:ℝ) ≤ (-(a:ℝ))^2 + (3 * (b : ℝ) ^ 2 - (a : ℝ) ^ 2) by positivity),
          Real.sqrt_nonneg ((-(a:ℝ))^2 + (3 * (b : ℝ) ^ 2 - (a : ℝ) ^ 2)),
          Real.sqrt_nonneg (3 * (b : ℝ) ^ 2)]
      rw [key]
      linarith
    · intro h
      have hlt : -(a : ℝ) < (b : ℝ) * Real.sqrt 3 := by linarith
      have hsq : ((a : ℝ)) ^ 2 < 3 * (b : ℝ) ^ 2 := by
        have hna : (0 : ℝ) ≤ -(a : ℝ) := by linarith
        have := mul_self_lt_mul_self hna hlt
        have h3 : Real.sqrt 3 * Real.sqrt 3 = 3 := Real.mul_self_sqrt (by norm_num)
        nlinarith
      exact_mod_cast hsq
  · -- b < 0
    push_neg at hb
    simp only [decide_eq_true_eq]
    have hbR : (b : ℝ) < 0 := by exact_mod_cast hb
    have key : -((b : ℝ)) * Real.sqrt 3 = Real.sqrt (3 * (b : ℝ) ^ 2) := by
      rw [show (3 : ℝ) * (b : ℝ) ^ 2 = (-(b : ℝ)) ^ 2 * 3 by ring]
      rw [Real.sqrt_mul (by positivity), Real.sqrt_sq (by linarith)]
    constructor
    · rintro ⟨h1, h2⟩
      have h1R : (0 : ℝ) < (a : ℝ) := by exact_mod_cast h1
      have h2R : 3 * (b : ℝ) ^ 2 < ((a : ℝ)) ^ 2 := by exact_mod_cast h2
      have : Real.sqrt (3 * (b : ℝ) ^ 2) < (a : ℝ) := by
        rw [show (a : ℝ) = Real.sqrt ((a : ℝ) ^ 2) from (Real.sqrt_sq (le_of_lt h1R)).symm]
        exact Real.sqrt_lt_sqrt (by positivity) h2R
      rw [show (b : ℝ) * Real.sqrt 3 = -(-((b : ℝ)) * Real.sqrt 3) by ring, key]
      linarith
    · intro h
      have hgt : Real.sqrt (3 * (b : ℝ) ^ 2) < (a : ℝ) := by
        rw [← key]
        nlinarith
      have hapos : (0 : ℝ) < (a : ℝ) :=
        lt_of_le_of_lt (Real.sqrt_nonneg _) hgt
      have hsq : 3 * (b : ℝ) ^ 2 < ((a : ℝ)) ^ 2 := by
        have := mul_self_lt_mul_self (Real.sqrt_nonneg (3 * (b : ℝ) ^ 2)) hgt
        have h3 : Real.sqrt (3 * (b : ℝ) ^ 2) * Real.sqrt (3 * (b : ℝ) ^ 2) = 3 * (b : ℝ) ^ 2 :=
          Real.mul_self_sqrt (by positivity)
        nlinarith
      constructor
      · exact_mod_cast hapos
      · exact_mod_cast hsq

instance (x y : Q3) : Decidable (Q3.ltQ x y) :=
  decidable_of_iff ((y - x).isPos = true) (by
    rw [Q3.isPos_iff, Q3.toReal_sub]
    unfold Q3.ltQ
    constructor <;> intro h <;> linarith)

instance (x y : Q3) : Decidable (Q3.leQ x y) :=
  decidable_of_iff (¬ (x - y).isPos = true) (by
    rw [Q3.isPos_iff, Q3.toReal_sub]
    unfold Q3.leQ
    constructor <;> intro h <;> [skip; intro hc] <;> [push_neg at h; skip] <;> linarith)

/-- Squared pixel distance between two points of ℚ[√3]². -/
def Q3.distSq (p q : Q3 × Q3) : Q3 := (p.1 - q.1) * (p.1 - q.1) + (p.2 - q.2) * (p.2 - q.2)

theorem Q3.toReal_distSq (p q : Q3 × Q3) :
    (Q3.distSq p q).toReal = (p.1.toReal - q.1.toReal) ^ 2 + (p.2.toReal - q.2.toReal) ^ 2 := by
  unfold Q3.distSq
  rw [Q3.toReal_add, Q3.toReal_mul, Q3.toReal_mul, Q3.toReal_sub, Q3.toReal_sub]
  ring

theorem Q3.distSq_nonneg (p q : Q3 × Q3) : 0 ≤ (Q3.distSq p q).toReal := by
  rw [Q3.toReal_distSq]
  positivity

/-! ## Bubble (one grid cell) and the grid geometry -/

structure Bubble where
  id : ℕ
  row : ℤ
  col : ℤ
  x : Q3
  y : Q3
  color : BubbleColor
  active : Bool
deriving DecidableEq

/-- ROW_HEIGHT = BUBBLE_RADIUS * Math.sqrt(3). -/
def ROW_HEIGHT : Q3 := ⟨0, BUBBLE_RADIUS⟩

/-- getBubblePos(row, col, width): x is rational; y = BUBBLE_RADIUS + row·ROW_HEIGHT. -/
def getBubblePos (row col : ℤ) (width : ℚ) : Q3 × Q3 :=
  let xOffset : ℚ := (width - (GRID_COLS * (BUBBLE_RADIUS * 2))) / 2 + BUBBLE_RADIUS
  let isOdd : Bool := decide (row % 2 ≠ 0)
  let x : ℚ := xOffset + col * (BUBBLE_RADIUS * 2) + (if isOdd then BUBBLE_RADIUS else 0)
  (Q3.ofRat x, Q3.ofRat BUBBLE_RADIUS + Q3.ofRat (row : ℚ) * ROW_HEIGHT)

/-- Number of columns in a row: odd rows have GRID_COLS - 1, even rows GRID_COLS
(`r % 2 !== 0 ? GRID_COLS - 1 : GRID_COLS`). -/
def colsInRow (r : ℤ) : ℕ := if r % 2 ≠ 0 then GRID_COLS - 1 else GRID_COLS

/-- isNeighbor(a, b) from GeminiSlingshot.tsx (Math.abs modelled by Int.natAbs). -/
def isNeighbor (a b : Bubble) : Bool :=
  let dr := b.row - a.row
  let dc := b.col - a.col
  if 1 < dr.natAbs then false
  else if dr = 0 then decide (dc.natAbs = 1)
  else if a.row % 2 ≠ 0 then decide (dc = 0 ∨ dc = 1)
  else decide (dc = -1 ∨ dc = 0)

/-- Characterization of isNeighbor, shared by the C2 and C10 theorems. -/
theorem isNeighbor_eq_true (a b : Bubble) :
    isNeighbor a b = true ↔
      ((a.row = b.row ∧ (b.col - a.col = 1 ∨ b.col - a.col = -1)) ∨
       ((b.row - a.row = 1 ∨ b.row - a.row = -1) ∧
         (if a.row % 2 ≠ 0 then b.col - a.col = 0 ∨ b.col - a.col = 1
          else b.col - a.col = -1 ∨ b.col - a.col = 0))) := by
  unfold isNeighbor
  by_cases hp : a.row % 2 ≠ 0 <;>
    simp only [hp, if_true, if_false, ite_true, ite_false] <;>
    split_ifs <;>
    simp only [decide_eq_true_eq, Bool.false_eq_true, false_iff] <;>
    omega

/-- C2: the hex adjacency predicate holds exactly when the two cells are in the
same row with columns differing by 1, or in adjacent rows with the column
offset determined by the parity of the first cell's row (0 or 1 for odd rows,
-1 or 0 for even rows); consequently every cell has exactly six neighbor
directions. -/
theorem isNeighbor_characterization :
    (∀ a b : Bubble, isNeighbor a b = true ↔
      ((a.row = b.row ∧ (b.col - a.col = 1 ∨ b.col - a.col = -1)) ∨
       ((b.row - a.row = 1 ∨ b.row - a.row = -1) ∧
         (if a.row % 2 ≠ 0 then b.col - a.col = 0 ∨ b.col - a.col = 1
          else b.col - a.col = -1 ∨ b.col - a.col = 0)))) ∧
    (∀ a : Bubble,
      ((Finset.Icc (-1 : ℤ) 1 ×ˢ Finset.Icc (-1 : ℤ) 1).filter
        (fun d => isNeighbor a { a with row := a.row + d.1, col := a.col + d.2 } = true)).card
      = 6) := by
  refine ⟨isNeighbor_eq_true, fun a => ?_⟩
  by_cases hp : a.row % 2 ≠ 0
  · have he : ((Finset.Icc (-1 : ℤ) 1 ×ˢ Finset.Icc (-1 : ℤ) 1).filter
        (fun d => isNeighbor a { a with row := a.row + d.1, col := a.col + d.2 } = true))
        = ({(-1, 0), (-1, 1), (0, -1), (0, 1), (1, 0), (1, 1)} : Finset (ℤ × ℤ)) := by
      ext d
      simp [isNeighbor_eq_true, hp, Prod.ext_iff]
      omega
    rw [he]
    decide
  · have he : ((Finset.Icc (-1 : ℤ) 1 ×ˢ Finset.Icc (-1 : ℤ) 1).filter
        (fun d => isNeighbor a { a with row := a.row + d.1, col := a.col + d.2 } = true))
        = ({(-1, -1), (-1, 0), (0, -1), (0, 1), (1, -1), (1, 0)} : Finset (ℤ × ℤ)) := by
      ext d
      simp [isNeighbor_eq_true, hp, Prod.ext_iff]
      omega
    rw [he]
    decide

/-- C10: hex adjacency is symmetric, so flood-fill cluster membership does not
depend on traversal direction. -/
theorem isNeighbor_symm (a b : Bubble) : isNeighbor a b = isNeighbor b a := by
  have h1 := isNeighbor_eq_true a b
  have h2 := isNeighbor_eq_true b a
  by_cases hpa : a.row % 2 ≠ 0 <;> by_cases hpb : b.row % 2 ≠ 0 <;>
    simp only [hpa, hpb, if_true, if_false, ite_true, ite_false, if_pos, if_neg,
      not_true, not_false_iff] at h1 h2 <;>
    cases hab : isNeighbor a b <;> cases hba : isNeighbor b a <;>
    simp_all <;> omega

/-! ## Nearest-free-cell placement (the collision handler's scan) -/

/-- Is some active bubble of `L` at grid cell (r, c)?
(`bubbles.current.some(b => b.active && b.row === r && b.col === c)`). -/
def occupiedAt (L : List Bubble) (r c : ℤ) : Bool :=
  L.any (fun bb => bb.active && bb.row == r && bb.col == c)

/-- The (row, col) pairs scanned by the placement search:
`for (r = 0; r < GRID_ROWS + 5; r++) for (c = 0; c < colsInRow; c++)`. -/
def windowCells : List (ℤ × ℤ) :=
  (List.range (GRID_ROWS + 5)).flatMap (fun r =>
    (List.range (colsInRow (r : ℤ))).map (fun c => ((r : ℤ), (c : ℤ))))

/-- Accumulator of the scan; `bestDist = none` models the initial `Infinity`,
and the initial best cell is (0, 0) with pixel (0, 0). -/
structure PlaceBest where
  bestDist : Option Q3
  bestRow : ℤ
  bestCol : ℤ
  bestX : Q3
  bestY : Q3
deriving DecidableEq

/-- One iteration of the scan.  The source compares `Math.sqrt` of the squared
distances; the square root is strictly monotone on nonnegative reals, so the
comparison of the squares used here is equivalent. -/
def placeScanStep (pos : Q3 × Q3) (L : List Bubble) (width : ℚ)
    (acc : PlaceBest) (rc : ℤ × ℤ) : PlaceBest :=
  if occupiedAt L rc.1 rc.2 then acc
  else
    let p := getBubblePos rc.1 rc.2 width
    let d := Q3.distSq pos p
    match acc.bestDist with
    | none => ⟨some d, rc.1, rc.2, p.1, p.2⟩
    | some bd => if Q3.ltQ d bd then ⟨some d, rc.1, rc.2, p.1, p.2⟩ else acc

/-- The nearest-free-cell search run by the collision handler. -/
def findPlacement (pos : Q3 × Q3) (L : List Bubble) (width : ℚ) : PlaceBest :=
  windowCells.foldl (placeScanStep pos L width) ⟨none, 0, 0, Q3.ofRat 0, Q3.ofRat 0⟩

theorem Q3.leQ_refl (x : Q3) : x.leQ x := le_refl _

theorem Q3.leQ_trans {x y z : Q3} (h1 : x.leQ y) (h2 : y.leQ z) : x.leQ z := le_trans h1 h2

theorem Q3.ltQ_leQ {x y : Q3} (h : x.ltQ y) : x.leQ y := le_of_lt h

theorem Q3.leQ_of_not_ltQ {x y : Q3} (h : ¬ x.ltQ y) : y.leQ x := le_of_not_lt h

/-- Invariant of the placement scan after having processed the cells in `seen`. -/
def PlaceAccOk (pos : Q3 × Q3) (L : List Bubble) (width : ℚ)
    (seen : List (ℤ × ℤ)) (acc : PlaceBest) : Prop :=
  (acc.bestDist = none → ∀ rc ∈ seen, occupiedAt L rc.1 rc.2 = true) ∧
  (∀ d, acc.bestDist = some d →
    (acc.bestRow, acc.bestCol) ∈ seen ∧
    occupiedAt L acc.bestRow acc.bestCol = false ∧
    d = Q3.distSq pos (getBubblePos acc.bestRow acc.bestCol width) ∧
    acc.bestX = (getBubblePos acc.bestRow acc.bestCol width).1 ∧
    acc.bestY = (getBubblePos acc.bestRow acc.bestCol width).2 ∧
    ∀ rc ∈ seen, occupiedAt L rc.1 rc.2 = false →
      Q3.leQ d (Q3.distSq pos (getBubblePos rc.1 rc.2 width)))

theorem placeScanStep_ok (pos : Q3 × Q3) (L : List Bubble) (width : ℚ)
    (seen : List (ℤ × ℤ)) (acc : PlaceBest) (rc : ℤ × ℤ)
    (hacc : PlaceAccOk pos L width seen acc) :
    PlaceAccOk pos L width (seen ++ [rc]) (placeScanStep pos L width acc rc) := by
  obtain ⟨hnone, hsome⟩ := hacc
  unfold placeScanStep
  by_cases hocc : occupiedAt L rc.1 rc.2 = true
  · simp only [hocc, if_true]
    constructor
    · intro hn rc2 hrc2
      rcases List.mem_append.mp hrc2 with h | h
      · exact hnone hn rc2 h
      · simp only [List.mem_singleton] at h
        subst h
        exact hocc
    · intro d hd
      obtain ⟨hmem, hfree, hdef, hx, hy, hmin⟩ := hsome d hd
      refine ⟨List.mem_append.mpr (Or.inl hmem), hfree, hdef, hx, hy, ?_⟩
      intro rc2 hrc2 hfree2
      rcases List.mem_append.mp hrc2 with h | h
      · exact hmin rc2 h hfree2
      · simp only [List.mem_singleton] at h
        subst h
        rw [hocc] at hfree2
        exact absurd hfree2 (by simp)
  · replace hocc : occupiedAt L rc.1 rc.2 = false := by
      cases h : occupiedAt L rc.1 rc.2
      · rfl
      · exact absurd h hocc
    simp only [hocc, Bool.false_eq_true, if_false]
    cases hbd : acc.bestDist with
    | none =>
      refine ⟨by simp, ?_⟩
      intro d hd
      simp only at hd
      injection hd with hd
      subst hd
      refine ⟨List.mem_append.mpr (Or.inr (by simp)), hocc, rfl, rfl, rfl, ?_⟩
      intro rc2 hrc2 hfree2
      rcases List.mem_append.mp hrc2 with h | h
      · exact absurd (hnone hbd rc2 h) (by simp [hfree2])
      · simp only [List.mem_singleton] at h
        subst h
        exact Q3.leQ_refl _
    | some bd =>
      obtain ⟨hmem, hfree, hdef, hx, hy, hmin⟩ := hsome bd hbd
      by_cases hlt : Q3.ltQ (Q3.distSq pos (getBubblePos rc.1 rc.2 width)) bd
      · simp only [hlt, if_true]
        refine ⟨by simp, ?_⟩
        intro d hd
        simp only at hd
        injection hd with hd
        subst hd
        refine ⟨List.mem_append.mpr (Or.inr (by simp)), hocc, rfl, rfl, rfl, ?_⟩
        intro rc2 hrc2 hfree2
        rcases List.mem_append.mp hrc2 with h | h
        · exact Q3.leQ_trans (Q3.ltQ_leQ hlt) (hdef ▸ hmin rc2 h hfree2)
        · simp only [List.mem_singleton] at h
          subst h
          exact Q3.leQ_refl _
      · simp only [hlt, if_false]
        refine ⟨by simp [hbd], ?_⟩
        intro d hd
        rw [hbd] at hd
        injection hd with hd
        subst hd
        refine ⟨List.mem_append.mpr (Or.inl hmem), hfree, hdef, hx, hy, ?_⟩
        intro rc2 hrc2 hfree2
        rcases List.mem_append.mp hrc2 with h | h
        · exact hmin rc2 h hfree2
        · simp only [List.mem_singleton] at h
          subst h
          exact Q3.leQ_of_not_ltQ hlt

theorem placeScan_fold_ok (pos : Q3 × Q3) (L : List Bubble) (width : ℚ) :
    ∀ (cells seen : List (ℤ × ℤ)) (acc : PlaceBest),
      PlaceAccOk pos L width seen acc →
      PlaceAccOk pos L width (seen ++ cells) (cells.foldl (placeScanStep pos L width) acc) := by
  intro cells
  induction cells with
  | nil => intro seen acc h; simpa using h
  | cons rc rest ih =>
    intro seen acc hacc
    have h1 := placeScanStep_ok pos L width seen acc rc hacc
    have h2 := ih (seen ++ [rc]) (placeScanStep pos L width acc rc) h1
    simpa [List.append_assoc] using h2

theorem findPlacement_ok (pos : Q3 × Q3) (L : List Bubble) (width : ℚ) :
    PlaceAccOk pos L width windowCells (findPlacement pos L width) := by
  have h0 : PlaceAccOk pos L width [] ⟨none, 0, 0, Q3.ofRat 0, Q3.ofRat 0⟩ := by
    constructor
    · intro _ rc hrc
      exact absurd hrc (by simp)
    · intro d hd
      exact absurd hd (by simp)
  have := placeScan_fold_ok pos L width windowCells [] _ h0
  simpa using this

/-- Real Euclidean pixel distance between two points of ℚ[√3]². -/
noncomputable def pixelDist (p q : Q3 × Q3) : ℝ := Real.sqrt (Q3.distSq p q).toReal

theorem pixelDist_self (p : Q3 × Q3) : pixelDist p p = 0 := by
  unfold pixelDist
  have h : (Q3.distSq p p).toReal = 0 := by
    rw [Q3.toReal_distSq]
    ring
  rw [h, Real.sqrt_zero]

theorem pixelDist_mono {p q r : Q3 × Q3}
    (h : Q3.leQ (Q3.distSq p q) (Q3.distSq p r)) : pixelDist p q ≤ pixelDist p r :=
  Real.sqrt_le_sqrt h

/-- C4 as claimed: the committed cell is nearest (by pixel distance) among all
unoccupied grid cells of any row whatsoever, i.e. there is no fixed row ceiling
on placement. -/
def claimC4Prop : Prop :=
  ∀ (width : ℚ) (pos : Q3 × Q3) (L : List Bubble) (r c : ℤ),
    0 ≤ r → 0 ≤ c → c < (colsInRow r : ℤ) → occupiedAt L r c = false →
      pixelDist pos (getBubblePos (findPlacement pos L width).bestRow
          (findPlacement pos L width).bestCol width) ≤
        pixelDist pos (getBubblePos r c width)

set_option maxRecDepth 100000 in
attribute [local semireducible] Rat.mul Rat.add Rat.sub Rat.inv Rat.ofScientific in
theorem findPlacement_c4_eval :
    (findPlacement (getBubblePos 13 0 1000) [] 1000).bestRow = 12 ∧
    (findPlacement (getBubblePos 13 0 1000) [] 1000).bestCol = 0 ∧
    Q3.distSq (getBubblePos 13 0 1000) (getBubblePos 12 0 1000) = ⟨1936, 0⟩ := by
  decide

/-- C4 counterexample: with an empty board and the collision position exactly at
the pixel centre of cell (13, 0), the scan — which stops at row GRID_ROWS + 4 —
commits to cell (12, 0) at pixel distance 44, although the unoccupied cell
(13, 0) is at distance 0.  The placement search has a fixed row ceiling. -/
theorem findPlacement_not_unbounded : ¬ claimC4Prop := by
  intro h
  have h13 := h 1000 (getBubblePos 13 0 1000) [] 13 0 (by norm_num) le_rfl
    (by decide) rfl
  obtain ⟨hrow, hcol, hd⟩ := findPlacement_c4_eval
  rw [hrow, hcol, pixelDist_self] at h13
  have hval : pixelDist (getBubblePos 13 0 1000) (getBubblePos 12 0 1000) = 44 := by
    unfold pixelDist
    rw [hd]
    have : (Q3.mk 1936 0).toReal = 1936 := by
      unfold Q3.toReal
      norm_num
    rw [this, show (1936 : ℝ) = 44 ^ 2 by norm_num, Real.sqrt_sq (by norm_num)]
  rw [hval] at h13
  norm_num at h13

/-- C4 amended: for every collision position and occupancy, provided some cell of
the fixed search window (rows 0 .. GRID_ROWS + 4, standard per-row column count)
is unoccupied, the placement step commits the new bubble at the unoccupied
window cell whose pixel position is nearest (by Euclidean pixel distance) to the
collision position; the search window is a fixed row ceiling of GRID_ROWS + 5
rows, the grid cannot grow beyond it. -/
theorem findPlacement_nearest_in_window (width : ℚ) (pos : Q3 × Q3) (L : List Bubble)
    (hfree : ∃ rc ∈ windowCells, occupiedAt L rc.1 rc.2 = false) :
    ((findPlacement pos L width).bestRow, (findPlacement pos L width).bestCol) ∈ windowCells ∧
    occupiedAt L (findPlacement pos L width).bestRow (findPlacement pos L width).bestCol = false ∧
    (findPlacement pos L width).bestX
      = (getBubblePos (findPlacement pos L width).bestRow
          (findPlacement pos L width).bestCol width).1 ∧
    (findPlacement pos L width).bestY
      = (getBubblePos (findPlacement pos L width).bestRow
          (findPlacement pos L width).bestCol width).2 ∧
    ∀ rc ∈ windowCells, occupiedAt L rc.1 rc.2 = false →
      pixelDist pos (getBubblePos (findPlacement pos L width).bestRow
          (findPlacement pos L width).bestCol width) ≤
        pixelDist pos (getBubblePos rc.1 rc.2 width) := by
  obtain ⟨hnone, hsome⟩ := findPlacement_ok pos L width
  obtain ⟨rc0, hrc0, hfree0⟩ := hfree
  cases hbd : (findPlacement pos L width).bestDist with
  | none => exact absurd (hnone hbd rc0 hrc0) (by simp [hfree0])
  | some d =>
    obtain ⟨hmem, hfree1, hdef, hx, hy, hmin⟩ := hsome d hbd
    refine ⟨hmem, hfree1, hx, hy, ?_⟩
    intro rc2 hrc2 hfree2
    exact pixelDist_mono (hdef ▸ hmin rc2 hrc2 hfree2)

/-- Witness for the amended C4 theorem at a concrete input. -/
theorem findPlacement_nearest_in_window_witness :
    (∃ rc ∈ windowCells, occupiedAt [] rc.1 rc.2 = false) ∧
    (((findPlacement (Q3.ofRat 500, Q3.ofRat 100) [] 1000).bestRow,
        (findPlacement (Q3.ofRat 500, Q3.ofRat 100) [] 1000).bestCol) ∈ windowCells ∧
     occupiedAt [] (findPlacement (Q3.ofRat 500, Q3.ofRat 100) [] 1000).bestRow
        (findPlacement (Q3.ofRat 500, Q3.ofRat 100) [] 1000).bestCol = false ∧
     (findPlacement (Q3.ofRat 500, Q3.ofRat 100) [] 1000).bestX
       = (getBubblePos (findPlacement (Q3.ofRat 500, Q3.ofRat 100) [] 1000).bestRow
           (findPlacement (Q3.ofRat 500, Q3.ofRat 100) [] 1000).bestCol 1000).1 ∧
     (findPlacement (Q3.ofRat 500, Q3.ofRat 100) [] 1000).bestY
       = (getBubblePos (findPlacement (Q3.ofRat 500, Q3.ofRat 100) [] 1000).bestRow
           (findPlacement (Q3.ofRat 500, Q3.ofRat 100) [] 1000).bestCol 1000).2 ∧
     ∀ rc ∈ windowCells, occupiedAt [] rc.1 rc.2 = false →
       pixelDist (Q3.ofRat 500, Q3.ofRat 100)
           (getBubblePos (findPlacement (Q3.ofRat 500, Q3.ofRat 100) [] 1000).bestRow
             (findPlacement (Q3.ofRat 500, Q3.ofRat 100) [] 1000).bestCol 1000) ≤
         pixelDist (Q3.ofRat 500, Q3.ofRat 100) (getBubblePos rc.1 rc.2 1000)) :=
  ⟨⟨(0, 0), by decide, rfl⟩,
    findPlacement_nearest_in_window 1000 (Q3.ofRat 500, Q3.ofRat 100) []
      ⟨(0, 0), by decide, rfl⟩⟩

/-! ## Flood-fill match detection (checkMatches)

The source's worklist loop pops from the end of a JS array and pushes
neighbor arrays onto its end; here the stack is a Lean list with its head
as the top.  The resulting visit order differs but the computed match set
does not (it is proved below to be exactly the connected same-color
component).  The JS `visited` Set of ids is a list of ids. -/

def nodupIds (L : List Bubble) : Prop := (L.map Bubble.id).Nodup

/-- The worklist loop of checkMatches.  `fuel` bounds the number of
iterations; `floodFuel` below is proved sufficient. -/
def floodFill (L : List Bubble) (tc : BubbleColor) :
    ℕ → List Bubble → List ℕ → List Bubble → List Bubble
  | 0, _, _, mtchs => mtchs
  | _ + 1, [], _, mtchs => mtchs
  | fuel + 1, current :: rest, visited, mtchs =>
    if current.id ∈ visited then floodFill L tc fuel rest visited mtchs
    else
      let visited2 := current.id :: visited
      if current.color = tc then
        let nbrs := L.filter
          (fun bb => bb.active && decide (¬ bb.id ∈ visited2) && isNeighbor current bb)
        floodFill L tc fuel (nbrs ++ rest) visited2 (mtchs ++ [current])
      else
        floodFill L tc fuel rest visited2 mtchs

def floodFuel (L : List Bubble) : ℕ := (L.length + 1) * (L.length + 1) + 1

/-- The match set computed by checkMatches' flood fill from `start`. -/
def floodMatches (L : List Bubble) (start : Bubble) : List Bubble :=
  floodFill L start.color (floodFuel L) [start] [] []

/-- checkMatches: returns the updated bubble list, the score increment and
whether a match fired.  The source mutates the matched bubble objects in
place and accumulates `points += basePoints` per matched bubble; here the
list is rebuilt with the matched ids deactivated and the total is
`mtchs.length * basePoints`. -/
def checkMatches (L : List Bubble) (start : Bubble) : List Bubble × ℤ × Bool :=
  let mtchs := floodMatches L start
  if 3 ≤ mtchs.length then
    let basePoints := COLOR_POINTS start.color
    let multiplier : ℚ := if 3 < mtchs.length then 3 / 2 else 1
    let L2 := L.map (fun bb =>
      if mtchs.any (fun m => m.id == bb.id) then { bb with active := false } else bb)
    (L2, Int.floor ((mtchs.length * basePoints : ℚ) * multiplier), true)
  else (L, 0, false)

/-- One step of same-color adjacency inside the active bubbles of `L`. -/
def MatchEdge (L : List Bubble) (tc : BubbleColor) (x y : Bubble) : Prop :=
  x.color = tc ∧ y ∈ L ∧ y.active = true ∧ y.color = tc ∧ isNeighbor x y = true

/-- Connectivity by same-color adjacency: the flood-fill connected same-color
component of `s` is the set of bubbles reachable from `s` through `MatchEdge`. -/
def ReachSame (L : List Bubble) (tc : BubbleColor) (s b : Bubble) : Prop :=
  Relation.ReflTransGen (MatchEdge L tc) s b

/-- Membership in the connected same-color component of `start`. -/
def InMatchComponent (L : List Bubble) (start : Bubble) (b : Bubble) : Prop :=
  b ∈ L ∧ b.active = true ∧ b.color = start.color ∧ ReachSame L start.color start b

/-- Measure showing the worklist loop terminates within `floodFuel`. -/
def floodMeasure (L : List Bubble) (visited : List ℕ) (stack : List Bubble) : ℕ :=
  ((L.map Bubble.id).toFinset \ visited.toFinset).card * (L.length + 1) + stack.length

/-- Loop invariant of the flood fill. -/
structure FloodInv (L : List Bubble) (tc : BubbleColor) (start : Bubble)
    (stack : List Bubble) (visited : List ℕ) (mtchs : List Bubble) : Prop where
  mtch : ∀ b ∈ mtchs,
    b ∈ L ∧ b.active = true ∧ b.color = tc ∧ ReachSame L tc start b ∧ b.id ∈ visited
  stk : ∀ b ∈ stack, b ∈ L ∧ b.active = true ∧ (b.color = tc → ReachSame L tc start b)
  vis : ∀ b ∈ L, b.id ∈ visited → b.color = tc → b ∈ mtchs
  frontier : ∀ a ∈ mtchs, ∀ b ∈ L, b.active = true → isNeighbor a b = true →
    (b.id ∈ visited ∨ b ∈ stack)
  strt : start ∈ mtchs ∨ start ∈ stack
  ndp : (mtchs.map Bubble.id).Nodup

theorem nodupIds_inj {L : List Bubble} (hnd : nodupIds L) {x y : Bubble}
    (hx : x ∈ L) (hy : y ∈ L) (hid : x.id = y.id) : x = y :=
  List.inj_on_of_nodup_map hnd hx hy hid

theorem floodMeasure_visit (L : List Bubble) (visited : List ℕ) (current : Bubble)
    (hmem : current ∈ L) (hnv : ¬ current.id ∈ visited) :
    ((L.map Bubble.id).toFinset \ (current.id :: visited).toFinset).card + 1
      = ((L.map Bubble.id).toFinset \ visited.toFinset).card := by
  have hid : current.id ∈ (L.map Bubble.id).toFinset \ visited.toFinset := by
    simp only [Finset.mem_sdiff, List.mem_toFinset, List.mem_map]
    exact ⟨⟨current, hmem, rfl⟩, hnv⟩
  have hpos : 0 < ((L.map Bubble.id).toFinset \ visited.toFinset).card :=
    Finset.card_pos.mpr ⟨current.id, hid⟩
  rw [List.toFinset_cons, Finset.sdiff_insert, Finset.card_erase_of_mem hid]
  omega

theorem floodFill_go_spec (L : List Bubble) (tc : BubbleColor) (start : Bubble)
    (hnd : nodupIds L) (htc : start.color = tc) :
    ∀ (fuel : ℕ) (stack : List Bubble) (visited : List ℕ) (mtchs : List Bubble),
      FloodInv L tc start stack visited mtchs →
      floodMeasure L visited stack < fuel →
      (∀ b, b ∈ floodFill L tc fuel stack visited mtchs ↔
        (b ∈ L ∧ b.active = true ∧ b.color = tc ∧ ReachSame L tc start b)) ∧
      ((floodFill L tc fuel stack visited mtchs).map Bubble.id).Nodup := by
  intro fuel
  induction fuel with
  | zero =>
    intro stack visited mtchs _ hm
    exact absurd hm (by omega)
  | succ fuel ih =>
    intro stack visited mtchs hinv hm
    obtain ⟨mtch, stk, vis, frontier, strt, ndp⟩ := hinv
    cases stack with
    | nil =>
      have heq : floodFill L tc (fuel + 1) [] visited mtchs = mtchs := rfl
      rw [heq]
      refine ⟨?_, ndp⟩
      intro b
      constructor
      · intro hb
        obtain ⟨h1, h2, h3, h4, _⟩ := mtch b hb
        exact ⟨h1, h2, h3, h4⟩
      · rintro ⟨hbL, hbact, hbc, hreach⟩
        have hstartm : start ∈ mtchs := by
          rcases strt with h | h
          · exact h
          · exact absurd h (by simp)
        clear hbL hbact hbc
        induction hreach with
        | refl => exact hstartm
        | tail hab hedge ihh =>
          obtain ⟨_, hcL, hcact, hcc, hnb⟩ := hedge
          rcases frontier _ ihh _ hcL hcact hnb with h | h
          · exact vis _ hcL h hcc
          · exact absurd h (by simp)
    | cons current rest =>
      have hcurL : current ∈ L := (stk current (by simp)).1
      have hcuract : current.active = true := (stk current (by simp)).2.1
      by_cases hv : current.id ∈ visited
      · -- already visited: skip
        have heq : floodFill L tc (fuel + 1) (current :: rest) visited mtchs
            = floodFill L tc fuel rest visited mtchs := by
          simp [floodFill, hv]
        rw [heq]
        apply ih rest visited mtchs
        · refine ⟨mtch, fun b hb => stk b (by simp [hb]), vis, ?_, ?_, ndp⟩
          · intro a ha b hbL hbact hnb
            rcases frontier a ha b hbL hbact hnb with h | h
            · exact Or.inl h
            · rcases List.mem_cons.mp h with h | h
              · subst h
                exact Or.inl hv
              · exact Or.inr h
          · rcases strt with h | h
            · exact Or.inl h
            · rcases List.mem_cons.mp h with h | h
              · subst h
                exact Or.inl (vis _ hcurL hv htc)
              · exact Or.inr h
        · unfold floodMeasure at hm ⊢
          simp only [List.length_cons] at hm
          omega
      · by_cases hcol : current.color = tc
        · -- new same-color bubble: record the match and push its neighbors
          have heq : floodFill L tc (fuel + 1) (current :: rest) visited mtchs
              = floodFill L tc fuel
                  ((L.filter (fun bb => bb.active &&
                      decide (¬ bb.id ∈ current.id :: visited) && isNeighbor current bb)) ++ rest)
                  (current.id :: visited) (mtchs ++ [current]) := by
            simp [floodFill, hv, hcol]
          rw [heq]
          have hreachcur : ReachSame L tc start current := (stk current (by simp)).2.2 hcol
          have hmemnbrs : ∀ bb, bb ∈ L.filter (fun bb => bb.active &&
              decide (¬ bb.id ∈ current.id :: visited) && isNeighbor current bb) →
              bb ∈ L ∧ bb.active = true ∧ ¬ bb.id ∈ current.id :: visited ∧
              isNeighbor current bb = true := by
            intro bb hbb
            have h1 := List.of_mem_filter hbb
            have h2 := List.mem_of_mem_filter hbb
            simp only [Bool.and_eq_true, decide_eq_true_eq] at h1
            exact ⟨h2, h1.1.1, h1.1.2, h1.2⟩
          have hsub : ∀ bb ∈ mtchs, bb.id ∈ visited := fun bb hbb => (mtch bb hbb).2.2.2.2
          apply ih
          · refine ⟨?_, ?_, ?_, ?_, ?_, ?_⟩
            · intro b hb
              rcases List.mem_append.mp hb with h | h
              · obtain ⟨h1, h2, h3, h4, h5⟩ := mtch b h
                exact ⟨h1, h2, h3, h4, List.mem_cons_of_mem _ h5⟩
              · simp only [List.mem_singleton] at h
                subst h
                exact ⟨hcurL, hcuract, hcol, hreachcur, List.mem_cons_self _ _⟩
            · intro b hb
              rcases List.mem_append.mp hb with h | h
              · obtain ⟨h1, h2, h3, h4⟩ := hmemnbrs b h
                refine ⟨h1, h2, fun hbc => ?_⟩
                exact Relation.ReflTransGen.tail hreachcur ⟨hcol, h1, h2, hbc, h4⟩
              · exact stk b (by simp [h])
            · intro b hbL hbid hbcol
              rcases List.mem_cons.mp hbid with h | h
              · have : b = current := nodupIds_inj hnd hbL hcurL h
                subst this
                exact List.mem_append.mpr (Or.inr (by simp))
              · exact List.mem_append.mpr (Or.inl (vis b hbL h hbcol))
            · intro a ha b hbL hbact hnb
              rcases List.mem_append.mp ha with h | h
              · rcases frontier a h b hbL hbact hnb with h2 | h2
                · exact Or.inl (List.mem_cons_of_mem _ h2)
                · rcases List.mem_cons.mp h2 with h3 | h3
                  · subst h3
                    exact Or.inl (List.mem_cons_self _ _)
                  · exact Or.inr (List.mem_append.mpr (Or.inr h3))
              · simp only [List.mem_singleton] at h
                subst h
                by_cases hbv : b.id ∈ a.id :: visited
                · exact Or.inl hbv
                · refine Or.inr (List.mem_append.mpr (Or.inl ?_))
                  apply List.mem_filter.mpr
                  refine ⟨hbL, ?_⟩
                  simp [hbact, hbv, hnb]
            · rcases strt with h | h
              · exact Or.inl (List.mem_append.mpr (Or.inl h))
              · rcases List.mem_cons.mp h with h | h
                · subst h
                  exact Or.inl (List.mem_append.mpr (Or.inr (by simp)))
                · exact Or.inr (List.mem_append.mpr (Or.inr h))
            · rw [List.map_append, List.nodup_append]
              refine ⟨ndp, by simp, ?_⟩
              intro i hi hcon
              simp only [List.mem_map] at hi
              obtain ⟨bb, hbb, hbbid⟩ := hi
              simp only [List.map_cons, List.map_nil, List.mem_cons,
                List.not_mem_nil, or_false] at hcon
              apply hv
              rw [← hcon, ← hbbid]
              exact hsub bb hbb
          · -- measure decreases
            have hdec := floodMeasure_visit L visited current hcurL hv
            unfold floodMeasure at hm ⊢
            rw [List.length_append, List.length_cons] at *
            have hexp : ((L.map Bubble.id).toFinset \ visited.toFinset).card * (L.length + 1)
                = ((L.map Bubble.id).toFinset \ (current.id :: visited).toFinset).card
                    * (L.length + 1) + (L.length + 1) := by
              rw [← hdec]
              ring
            have hfl : (L.filter (fun bb => bb.active &&
                decide (¬ bb.id ∈ current.id :: visited) && isNeighbor current bb)).length
                ≤ L.length := List.length_filter_le _ _
            linarith [hm, hexp, hfl]
        · -- visited but wrong color: no match, no pushes
          have heq : floodFill L tc (fuel + 1) (current :: rest) visited mtchs
              = floodFill L tc fuel rest (current.id :: visited) mtchs := by
            simp [floodFill, hv, hcol]
          rw [heq]
          apply ih
          · refine ⟨?_, fun b hb => stk b (by simp [hb]), ?_, ?_, ?_, ndp⟩
            · intro b hb
              obtain ⟨h1, h2, h3, h4, h5⟩ := mtch b hb
              exact ⟨h1, h2, h3, h4, List.mem_cons_of_mem _ h5⟩
            · intro b hbL hbid hbcol
              rcases List.mem_cons.mp hbid with h | h
              · have : b = current := nodupIds_inj hnd hbL hcurL h
                subst this
                exact absurd hbcol hcol
              · exact vis b hbL h hbcol
            · intro a ha b hbL hbact hnb
              rcases frontier a ha b hbL hbact hnb with h | h
              · exact Or.inl (List.mem_cons_of_mem _ h)
              · rcases List.mem_cons.mp h with h | h
                · subst h
                  exact Or.inl (List.mem_cons_self _ _)
                · exact Or.inr h
            · rcases strt with h | h
              · exact Or.inl h
              · rcases List.mem_cons.mp h with h | h
                · subst h
                  exact absurd htc hcol
                · exact Or.inr h
          · have hdec := floodMeasure_visit L visited current hcurL hv
            unfold floodMeasure at hm ⊢
            have hexp : ((L.map Bubble.id).toFinset \ visited.toFinset).card * (L.length + 1)
                = ((L.map Bubble.id).toFinset \ (current.id :: visited).toFinset).card
                    * (L.length + 1) + (L.length + 1) := by
              rw [← hdec]
              ring
            simp only [List.length_cons] at hm
            linarith [hm, hexp]

theorem floodMatches_spec (L : List Bubble) (start : Bubble)
    (hnd : nodupIds L) (hstart : start ∈ L) (hact : start.active = true) :
    (∀ b, b ∈ floodMatches L start ↔ InMatchComponent L start b) ∧
    ((floodMatches L start).map Bubble.id).Nodup := by
  have hinv : FloodInv L start.color start [start] [] [] := by
    refine ⟨by simp, ?_, by simp, by simp, Or.inr (by simp), by simp⟩
    intro b hb
    simp only [List.mem_singleton] at hb
    subst hb
    exact ⟨hstart, hact, fun _ => Relation.ReflTransGen.refl⟩
  have hmeas : floodMeasure L [] [start] < floodFuel L := by
    unfold floodMeasure floodFuel
    have hcard : ((L.map Bubble.id).toFinset \ ([] : List ℕ).toFinset).card ≤ L.length := by
      calc ((L.map Bubble.id).toFinset \ ([] : List ℕ).toFinset).card
          ≤ (L.map Bubble.id).toFinset.card := Finset.card_le_card Finset.sdiff_subset
        _ ≤ (L.map Bubble.id).length := List.toFinset_card_le (L.map Bubble.id)
        _ = L.length := List.length_map _ _
    have h1 : ((L.map Bubble.id).toFinset \ ([] : List ℕ).toFinset).card * (L.length + 1)
        ≤ L.length * (L.length + 1) := Nat.mul_le_mul_right _ hcard
    have h2 : L.length * (L.length + 1) < (L.length + 1) * (L.length + 1) := by nlinarith
    simp only [List.length_singleton]
    linarith
  exact floodFill_go_spec L start.color start hnd rfl (floodFuel L) [start] [] [] hinv hmeas

/-- C1: for a newly placed bubble `start`, checkMatches computes exactly the
flood-fill connected same-color component of `start` (characterised through
reflexive-transitive same-color hex adjacency); when its size is at least 3 it
deactivates exactly the component's bubbles and adds
floor(size × basePoints × multiplier) to the score, with multiplier 3/2 when
size > 3 and 1 when size = 3; when the size is below 3 nothing is deactivated
and the score is unchanged. -/
theorem checkMatches_correct (L : List Bubble) (start : Bubble)
    (hnd : nodupIds L) (hstart : start ∈ L) (hact : start.active = true) :
    (∀ b, b ∈ floodMatches L start ↔ InMatchComponent L start b) ∧
    ((floodMatches L start).map Bubble.id).Nodup ∧
    (3 ≤ (floodMatches L start).length →
      List.Forall₂ (fun b bb =>
          (InMatchComponent L start b → bb = { b with active := false }) ∧
          (¬ InMatchComponent L start b → bb = b)) L (checkMatches L start).1 ∧
      (checkMatches L start).2.1 =
        Int.floor (((floodMatches L start).length * COLOR_POINTS start.color : ℚ) *
          (if 3 < (floodMatches L start).length then (3 : ℚ) / 2 else 1)) ∧
      (checkMatches L start).2.2 = true) ∧
    ((floodMatches L start).length < 3 →
      (checkMatches L start).1 = L ∧ (checkMatches L start).2.1 = 0 ∧
      (checkMatches L start).2.2 = false) := by
  obtain ⟨hiff, hnodup⟩ := floodMatches_spec L start hnd hstart hact
  refine ⟨hiff, hnodup, ?_, ?_⟩
  · intro h3
    have hmap : (checkMatches L start).1 = L.map (fun bb =>
        if (floodMatches L start).any (fun m => m.id == bb.id) then
          { bb with active := false } else bb) := by
      unfold checkMatches
      simp only [h3, if_true]
    refine ⟨?_, ?_, ?_⟩
    · rw [hmap, List.forall₂_map_right_iff, List.forall₂_same]
      intro b hb
      by_cases hc : InMatchComponent L start b
      · have hbm : b ∈ floodMatches L start := (hiff b).mpr hc
        have hany : (floodMatches L start).any (fun m => m.id == b.id) = true :=
          List.any_eq_true.mpr ⟨b, hbm, by simp⟩
        exact ⟨fun _ => by simp [hany], fun hcon => absurd hc hcon⟩
      · have hnotany : ¬ (floodMatches L start).any (fun m => m.id == b.id) = true := by
          intro hany
          obtain ⟨m, hm, hmid⟩ := List.any_eq_true.mp hany
          have hmid2 : m.id = b.id := by simpa using hmid
          have hmc := (hiff m).mp hm
          have hmb : m = b := nodupIds_inj hnd hmc.1 hb hmid2
          rw [hmb] at hmc
          exact hc hmc
        have hanyf : (floodMatches L start).any (fun m => m.id == b.id) = false :=
          Bool.not_eq_true _ |>.mp hnotany
        exact ⟨fun hcon => absurd hcon hc, fun _ => by simp [hanyf]⟩
    · unfold checkMatches
      simp only [h3, if_true]
    · unfold checkMatches
      simp only [h3, if_true]
  · intro hlt
    have hn3 : ¬ 3 ≤ (floodMatches L start).length := by omega
    unfold checkMatches
    simp [hn3]

def c1Bub (i : ℕ) (r c : ℤ) : Bubble :=
  ⟨i, r, c, Q3.ofRat 0, Q3.ofRat 0, BubbleColor.red, true⟩

def c1L : List Bubble := [c1Bub 0 0 0, c1Bub 1 0 1, c1Bub 2 0 2]

/-- Witness for C1 at a concrete three-bubble board. -/
theorem checkMatches_correct_witness :
    (nodupIds c1L ∧ c1Bub 2 0 2 ∈ c1L ∧ (c1Bub 2 0 2).active = true) ∧
    ((∀ b, b ∈ floodMatches c1L (c1Bub 2 0 2) ↔ InMatchComponent c1L (c1Bub 2 0 2) b) ∧
     ((floodMatches c1L (c1Bub 2 0 2)).map Bubble.id).Nodup ∧
     (3 ≤ (floodMatches c1L (c1Bub 2 0 2)).length →
       List.Forall₂ (fun b bb =>
           (InMatchComponent c1L (c1Bub 2 0 2) b → bb = { b with active := false }) ∧
           (¬ InMatchComponent c1L (c1Bub 2 0 2) b → bb = b)) c1L
         (checkMatches c1L (c1Bub 2 0 2)).1 ∧
       (checkMatches c1L (c1Bub 2 0 2)).2.1 =
         Int.floor (((floodMatches c1L (c1Bub 2 0 2)).length
             * COLOR_POINTS (c1Bub 2 0 2).color : ℚ) *
           (if 3 < (floodMatches c1L (c1Bub 2 0 2)).length then (3 : ℚ) / 2 else 1)) ∧
       (checkMatches c1L (c1Bub 2 0 2)).2.2 = true) ∧
     ((floodMatches c1L (c1Bub 2 0 2)).length < 3 →
       (checkMatches c1L (c1Bub 2 0 2)).1 = c1L ∧
       (checkMatches c1L (c1Bub 2 0 2)).2.1 = 0 ∧
       (checkMatches c1L (c1Bub 2 0 2)).2.2 = false)) :=
  ⟨⟨by show (c1L.map Bubble.id).Nodup; decide, by decide, rfl⟩,
    checkMatches_correct c1L (c1Bub 2 0 2) (by show (c1L.map Bubble.id).Nodup; decide)
      (by decide) rfl⟩

/-! ## Projectile placement commit (collision branch) and the C3 invariant -/

/-- The bubble committed on collision: the nearest-free-cell search result with
the currently selected color (`bubbles.current.push(newBubble)`).  In the
source the fresh id comes from `Date.now()`; it is a parameter here. -/
def placedBubble (L : List Bubble) (pos : Q3 × Q3) (color : BubbleColor) (newId : ℕ)
    (width : ℚ) : Bubble :=
  let res := findPlacement pos L width
  ⟨newId, res.bestRow, res.bestCol, res.bestX, res.bestY, color, true⟩

/-- One projectile placement at collision position `pos`: commit the new bubble
and run match detection on it, as the collision branch of the frame loop does. -/
def placeStep (L : List Bubble) (pos : Q3 × Q3) (color : BubbleColor) (newId : ℕ)
    (width : ℚ) : List Bubble :=
  let nb := placedBubble L pos color newId width
  (checkMatches (L ++ [nb]) nb).1

theorem findPlacement_full_board (pos : Q3 × Q3) (L : List Bubble) (width : ℚ)
    (hfull : ∀ rc ∈ windowCells, occupiedAt L rc.1 rc.2 = true) :
    findPlacement pos L width = ⟨none, 0, 0, Q3.ofRat 0, Q3.ofRat 0⟩ := by
  unfold findPlacement
  have haux : ∀ (cells : List (ℤ × ℤ)) (acc : PlaceBest),
      (∀ rc ∈ cells, occupiedAt L rc.1 rc.2 = true) →
      cells.foldl (placeScanStep pos L width) acc = acc := by
    intro cells
    induction cells with
    | nil => intro acc _; rfl
    | cons rc rest ihc =>
      intro acc hocc
      have h1 : occupiedAt L rc.1 rc.2 = true := hocc rc (by simp)
      have hstep : placeScanStep pos L width acc rc = acc := by
        unfold placeScanStep
        simp [h1]
      rw [List.foldl_cons, hstep]
      exact ihc acc (fun rc2 h => hocc rc2 (by simp [h]))
  exact haux windowCells _ hfull

/-- C3 (code bug in the placement scan): when every cell of the fixed search
window is occupied — a state the game can reach by filling the board shot by
shot — the scan never updates its initial best cell, so the new bubble is
committed at (0, 0) even though (0, 0) is occupied, and two distinct active
bubbles then share the cell (0, 0): the uniqueness invariant breaks. -/
theorem placeStep_full_board_duplicate (L : List Bubble) (pos : Q3 × Q3)
    (color : BubbleColor) (newId : ℕ) (width : ℚ) (b0 : Bubble)
    (hfull : ∀ rc ∈ windowCells, occupiedAt L rc.1 rc.2 = true)
    (hb0 : b0 ∈ L) (hb0act : b0.active = true) (hb0row : b0.row = 0) (hb0col : b0.col = 0)
    (hb0id : b0.id ≠ newId)
    (hlt : (floodMatches (L ++ [placedBubble L pos color newId width])
      (placedBubble L pos color newId width)).length < 3) :
    (placedBubble L pos color newId width).row = 0 ∧
    (placedBubble L pos color newId width).col = 0 ∧
    placeStep L pos color newId width = L ++ [placedBubble L pos color newId width] ∧
    (∃ b1 ∈ placeStep L pos color newId width, ∃ b2 ∈ placeStep L pos color newId width,
      b1.active = true ∧ b2.active = true ∧ b1.row = 0 ∧ b1.col = 0 ∧
      b2.row = 0 ∧ b2.col = 0 ∧ b1 ≠ b2) := by
  have hfp := findPlacement_full_board pos L width hfull
  have hnb : placedBubble L pos color newId width
      = ⟨newId, 0, 0, Q3.ofRat 0, Q3.ofRat 0, color, true⟩ := by
    unfold placedBubble
    rw [hfp]
  have hn3 : ¬ 3 ≤ (floodMatches (L ++ [placedBubble L pos color newId width])
      (placedBubble L pos color newId width)).length := by omega
  have hps : placeStep L pos color newId width
      = L ++ [placedBubble L pos color newId width] := by
    unfold placeStep checkMatches
    simp [hn3]
  refine ⟨by rw [hnb], by rw [hnb], hps, ?_⟩
  refine ⟨b0, by rw [hps]; exact List.mem_append.mpr (Or.inl hb0),
    placedBubble L pos color newId width, by rw [hps]; exact List.mem_append.mpr (Or.inr (by simp)),
    hb0act, by rw [hnb], hb0row, hb0col, by rw [hnb], by rw [hnb], ?_⟩
  intro hcon
  apply hb0id
  rw [hcon, hnb]

/-- A concrete board occupying every window cell (all red, arbitrary pixel
coordinates; occupancy only reads row/col/active). -/
def c3Board : List Bubble :=
  windowCells.map (fun rc =>
    ⟨rc.1.toNat * GRID_COLS + rc.2.toNat, rc.1, rc.2, Q3.ofRat 0, Q3.ofRat 0,
      BubbleColor.red, true⟩)

def c3B0 : Bubble := ⟨0, 0, 0, Q3.ofRat 0, Q3.ofRat 0, BubbleColor.red, true⟩

set_option maxRecDepth 40000 in
/-- Witness for C3 on the concrete full board: one more placement (of a yellow
bubble, which matches nothing) duplicates cell (0, 0). -/
theorem placeStep_full_board_duplicate_witness :
    ((∀ rc ∈ windowCells, occupiedAt c3Board rc.1 rc.2 = true) ∧
     c3B0 ∈ c3Board ∧ c3B0.active = true ∧ c3B0.row = 0 ∧ c3B0.col = 0 ∧
     c3B0.id ≠ 9999 ∧
     (floodMatches (c3Board ++ [placedBubble c3Board (Q3.ofRat 0, Q3.ofRat 0)
         BubbleColor.yellow 9999 1000])
       (placedBubble c3Board (Q3.ofRat 0, Q3.ofRat 0) BubbleColor.yellow 9999 1000)).length
       < 3) ∧
    ((placedBubble c3Board (Q3.ofRat 0, Q3.ofRat 0) BubbleColor.yellow 9999 1000).row = 0 ∧
     (placedBubble c3Board (Q3.ofRat 0, Q3.ofRat 0) BubbleColor.yellow 9999 1000).col = 0 ∧
     placeStep c3Board (Q3.ofRat 0, Q3.ofRat 0) BubbleColor.yellow 9999 1000
       = c3Board ++ [placedBubble c3Board (Q3.ofRat 0, Q3.ofRat 0) BubbleColor.yellow 9999 1000] ∧
     (∃ b1 ∈ placeStep c3Board (Q3.ofRat 0, Q3.ofRat 0) BubbleColor.yellow 9999 1000,
      ∃ b2 ∈ placeStep c3Board (Q3.ofRat 0, Q3.ofRat 0) BubbleColor.yellow 9999 1000,
        b1.active = true ∧ b2.active = true ∧ b1.row = 0 ∧ b1.col = 0 ∧
        b2.row = 0 ∧ b2.col = 0 ∧ b1 ≠ b2)) :=
  ⟨⟨by decide, by decide, rfl, rfl, rfl, by decide, by decide⟩,
    placeStep_full_board_duplicate c3Board (Q3.ofRat 0, Q3.ofRat 0) BubbleColor.yellow
      9999 1000 c3B0 (by decide) (by decide) rfl rfl rfl (by decide) (by decide)⟩

/-! ## The per-frame game loop (onResults)

External hand tracking supplies, per frame, an optional cursor point and a
pinch distance; `now` is performance.now().  Game state mutated by the loop
closure becomes a record threaded through pure phase functions.  The advisory
round trip is observed through `inFlight` (outstanding requests), and the
one-shot 2-second initial-analysis timer from initGrid through `timerPending`.
The drag clamp at MAX_DRAG_DIST recomputes the position with cos/atan2 at an
irrational point not representable here; a frame that triggers it sets
`unmodeled` and no theorem below concerns such frames. -/

structure FrameInput where
  hand : Option (ℚ × ℚ)
  pinchDist : ℚ
  now : ℚ
deriving DecidableEq

structure GameState where
  width : ℚ
  height : ℚ
  anchor : ℚ × ℚ
  ballPos : ℚ × ℚ
  ballVel : ℚ × ℚ
  isPinching : Bool
  isFlying : Bool
  flightStart : ℚ
  bubblesL : List Bubble
  score : ℤ
  selectedColor : BubbleColor
  isAiThinking : Bool
  captureRequest : Bool
  shotsFired : ℕ
  nextId : ℕ
  inFlight : ℕ
  timerPending : Bool
  unmodeled : Bool
deriving DecidableEq

/-- The slingshot aim/draw controller part of onResults. -/
def dragPhase (s : GameState) (input : FrameInput) : GameState :=
  let isLocked := s.isAiThinking
  if isLocked = false ∧ input.hand.isSome = true ∧ input.pinchDist < PINCH_THRESHOLD ∧
      s.isFlying = false then
    match input.hand with
    | none => s
    | some hp =>
      let distSqBall := (hp.1 - s.ballPos.1) ^ 2 + (hp.2 - s.ballPos.2) ^ 2
      let pin2 := if s.isPinching = false ∧ distSqBall < 100 ^ 2 then true else s.isPinching
      if pin2 then
        let dragDx := hp.1 - s.anchor.1
        let dragDy := hp.2 - s.anchor.2
        if dragDx ^ 2 + dragDy ^ 2 > MAX_DRAG_DIST ^ 2 then
          { s with isPinching := true, ballPos := hp, unmodeled := true }
        else
          { s with isPinching := true, ballPos := hp }
      else
        { s with isPinching := pin2 }
  else if s.isPinching = true ∧
      (input.hand.isSome = false ∨ PINCH_THRESHOLD ≤ input.pinchDist ∨ isLocked = true) then
    if isLocked then
      { s with isPinching := false, ballPos := s.anchor }
    else
      let dx := s.anchor.1 - s.ballPos.1
      let dy := s.anchor.2 - s.ballPos.2
      let stretchSq := dx ^ 2 + dy ^ 2
      if stretchSq > 30 ^ 2 then
        let powerSq : ℚ := min (stretchSq / MAX_DRAG_DIST ^ 2) 1
        let velocityMultiplier := MIN_FORCE_MULT + (MAX_FORCE_MULT - MIN_FORCE_MULT) * powerSq
        { s with
          isPinching := false, isFlying := true, flightStart := input.now,
          ballVel := (dx * velocityMultiplier, dy * velocityMultiplier),
          shotsFired := s.shotsFired + 1 }
      else
        { s with isPinching := false, ballPos := s.anchor }
  else if s.isFlying = false ∧ s.isPinching = false then
    { s with
      ballPos := (s.ballPos.1 + (s.anchor.1 - s.ballPos.1) * (15 / 100),
                  s.ballPos.2 + (s.anchor.2 - s.ballPos.2) * (15 / 100)) }
  else s

def stepsLoop (speedSq : ℚ) : ℕ → ℕ → ℕ
  | 0, n => n
  | fuel + 1, n =>
    if speedSq ≤ ((n : ℚ) * (BUBBLE_RADIUS * (8 / 10))) ^ 2 then n
    else stepsLoop speedSq fuel (n + 1)

/-- Math.ceil(currentSpeed / (BUBBLE_RADIUS * 0.8)): the least n whose square
bound dominates the squared speed (speed ≤ n·17.6 iff speedSq ≤ (n·17.6)²).
The search stops within speedSq.num + 2 steps, ample since the answer is at
most speed/17.6 + 1 ≤ speedSq + 2. -/
def ceilSteps (speedSq : ℚ) : ℕ := stepsLoop speedSq (speedSq.num.toNat + 2) 0

/-- The sub-step flight loop: move by vel/steps, reflect off side walls, stop
on the top boundary or within 1.8·BUBBLE_RADIUS of an active bubble.  Result:
(position, velocity, collided, some wall reflection happened). -/
def subStepLoop (w : ℚ) (L : List Bubble) (total : ℕ) :
    ℕ → (ℚ × ℚ) → (ℚ × ℚ) → Bool → (ℚ × ℚ) × (ℚ × ℚ) × Bool × Bool
  | 0, pos, vel, wall => (pos, vel, false, wall)
  | k + 1, pos, vel, wall =>
    let p1 : ℚ × ℚ := (pos.1 + vel.1 / total, pos.2 + vel.2 / total)
    let hitWall := p1.1 < BUBBLE_RADIUS ∨ p1.1 > w - BUBBLE_RADIUS
    let vel2 := if hitWall then (-vel.1, vel.2) else vel
    let p2 := if hitWall then (max BUBBLE_RADIUS (min (w - BUBBLE_RADIUS) p1.1), p1.2) else p1
    if p2.2 < BUBBLE_RADIUS then (p2, vel2, true, wall || decide hitWall)
    else if L.any (fun bb => bb.active &&
        decide (Q3.ltQ (Q3.distSq (Q3.ofRat p2.1, Q3.ofRat p2.2) (bb.x, bb.y))
          (Q3.ofRat ((BUBBLE_RADIUS * (18 / 10)) ^ 2)))) then
      (p2, vel2, true, wall || decide hitWall)
    else subStepLoop w L total k p2 vel2 (wall || decide hitWall)

/-- The flight physics part of onResults: the 5-second cutoff, the sub-step
loop, friction and gravity once per frame after it, then either the collision
commit (placement, match detection, color refresh, shot reset, advisory
request trigger) or the fell-off-the-bottom reset. -/
def physicsPhase (s : GameState) (input : FrameInput) : GameState :=
  if s.isFlying = true then
    if input.now - s.flightStart > 5000 then
      { s with isFlying := false, ballPos := s.anchor, ballVel := (0, 0) }
    else
      let speedSq := s.ballVel.1 ^ 2 + s.ballVel.2 ^ 2
      let steps := ceilSteps speedSq
      let r := subStepLoop s.width s.bubblesL steps steps s.ballPos s.ballVel false
      let pos2 := r.1
      let vel2 := ((r.2.1).1 * FRICTION, ((r.2.1).2 + GRAVITY) * FRICTION)
      if r.2.2.1 = true then
        let nb := placedBubble s.bubblesL (Q3.ofRat pos2.1, Q3.ofRat pos2.2)
          s.selectedColor s.nextId s.width
        let cm := checkMatches (s.bubblesL ++ [nb]) nb
        let L2 := cm.1
        let sel2 := if L2.any (fun bb => bb.active && bb.color == s.selectedColor) then
            s.selectedColor
          else
            match (L2.filter (fun bb => bb.active)).head? with
            | some bb => bb.color
            | none => s.selectedColor
        { s with
          isFlying := false, bubblesL := L2, score := s.score + cm.2.1,
          selectedColor := sel2, ballPos := s.anchor, ballVel := (0, 0),
          captureRequest := true, nextId := s.nextId + 1 }
      else if pos2.2 > s.height then
        { s with isFlying := false, ballPos := s.anchor, ballVel := (0, 0) }
      else
        { s with ballPos := pos2, ballVel := vel2 }
  else s

/-- End of frame: a pending capture request dispatches performAiAnalysis,
which locks interaction and starts the advisory round trip. -/
def capturePhase (s : GameState) : GameState :=
  if s.captureRequest then
    { s with captureRequest := false, isAiThinking := true, inFlight := s.inFlight + 1 }
  else s

/-- One full onResults frame. -/
def stepFrame (s : GameState) (input : FrameInput) : GameState :=
  capturePhase (physicsPhase (dragPhase s input) input)

/-- Events interleaving frames with the initGrid timer callback and advisory
response arrivals. -/
inductive GameEvent where
  | frame (input : FrameInput)
  | timerFire (time : ℚ)
  | response (time : ℚ) (recColor : Option BubbleColor)
deriving DecidableEq

def stepEvent (s : GameState) : GameEvent → GameState
  | .frame input => stepFrame s input
  | .timerFire _ =>
    if s.timerPending then { s with timerPending := false, captureRequest := true } else s
  | .response _ recColor =>
    if s.inFlight = 0 then s
    else
      let sel2 := match recColor with
        | some c => c
        | none => s.selectedColor
      { s with inFlight := s.inFlight - 1, isAiThinking := false, selectedColor := sel2 }

/-- The state set up by the mount effect and initGrid (ball at the anchor,
nothing pending, the one-shot initial-analysis timer armed at time 0). -/
def initState (w h : ℚ) (L : List Bubble) : GameState :=
  { width := w, height := h,
    anchor := (w / 2, h - SLINGSHOT_BOTTOM_OFFSET),
    ballPos := (w / 2, h - SLINGSHOT_BOTTOM_OFFSET),
    ballVel := (0, 0), isPinching := false, isFlying := false, flightStart := 0,
    bubblesL := L, score := 0, selectedColor := BubbleColor.red,
    isAiThinking := false, captureRequest := false, shotsFired := 0,
    nextId := 1000, inFlight := 0, timerPending := true, unmodeled := false }

def eventTime : GameEvent → ℚ
  | .frame input => input.now
  | .timerFire t => t
  | .response t _ => t

def timesMonoB : List GameEvent → Bool
  | [] => true
  | [_] => true
  | e1 :: e2 :: rest => decide (eventTime e1 ≤ eventTime e2) && timesMonoB (e2 :: rest)

/-- Event times are nondecreasing. -/
def TraceTimesMono (events : List GameEvent) : Prop :=
  timesMonoB events = true

def timerOkB (initTime : ℚ) : GameEvent → Bool
  | .timerFire t => decide (initTime + 2000 ≤ t)
  | _ => true

/-- The initial-analysis timer cannot fire before its 2000 ms delay. -/
def TimerValid (initTime : ℚ) (events : List GameEvent) : Prop :=
  ∀ e ∈ events, timerOkB initTime e = true

/-- C6 as claimed: in every execution — any valid interleaving of frames, the
initial timer, and advisory responses, from any initial board — at most one
advisory request is in flight at any time. -/
def claimC6Prop : Prop :=
  ∀ (w h : ℚ) (L : List Bubble) (events : List GameEvent),
    TraceTimesMono events → TimerValid 0 events →
    ∀ st ∈ List.scanl stepEvent (initState w h L) events, st.inFlight ≤ 1

/-- The spec's example board: three red bubbles at (0,0), (0,1), (0,2). -/
def c6Board : List Bubble :=
  (List.range 3).map (fun c =>
    ⟨c, 0, (c : ℤ), (getBubblePos 0 (c : ℤ) 1000).1, (getBubblePos 0 (c : ℤ) 1000).2,
      BubbleColor.red, true⟩)

/-- A pinch at the anchor, a 100 px draw straight down, release (fires the
ball straight up), flight frames until the top-boundary collision at
t = 1720 ms: that frame dispatches the first advisory request.  The one-shot
initGrid timer then fires at its earliest legal time t = 2000, and the next
frame dispatches a second advisory request while the first is still pending. -/
def c6Events : List GameEvent :=
  [GameEvent.frame ⟨some (500, 380), 1 / 100, 1300⟩,
   GameEvent.frame ⟨some (500, 480), 1 / 100, 1320⟩,
   GameEvent.frame ⟨some (500, 480), 2 / 10, 1340⟩] ++
  (List.range 19).map (fun k => GameEvent.frame ⟨none, 1, 1360 + 20 * (k : ℚ)⟩) ++
  [GameEvent.timerFire 2000, GameEvent.frame ⟨none, 1, 2010⟩]

set_option maxRecDepth 600000 in
attribute [local semireducible] Rat.mul Rat.add Rat.sub Rat.inv Rat.ofScientific in
theorem c6_trace_eval :
    TraceTimesMono c6Events ∧ TimerValid 0 c6Events ∧
    (∃ st ∈ List.scanl stepEvent (initState 1000 600 c6Board) c6Events,
      st.inFlight = 2 ∧ st.unmodeled = false) := by
  refine ⟨by unfold TraceTimesMono; decide, by unfold TimerValid; decide, ?_⟩
  decide

/-- C6 (code bug in the advisory coordination): the interaction lock does not
guard the initGrid timer path — a shot fired before the 2-second initial
analysis timer, colliding just before the timer fires, dispatches an advisory
request; the timer then sets captureRequest while that request is pending and
the next frame dispatches a second one, so two advisory requests are in
flight simultaneously. -/
theorem advisory_not_single_in_flight : ¬ claimC6Prop := by
  intro h
  obtain ⟨hmono, htimer, st, hst, h2, _⟩ := c6_trace_eval
  have := h 1000 600 c6Board c6Events hmono htimer st hst
  omega

/-- C7: for any frame processed while the advisory lock is active, a pinch
gesture never engages a drag and the ball never leaves the resting-at-anchor
state; if the lock became active during a drag, the drag is released without
firing and the ball is reset to the anchor. -/
theorem lock_suppresses_drag (s : GameState) (input : FrameInput)
    (hlock : s.isAiThinking = true) (hfly : s.isFlying = false) :
    (s.isPinching = false →
      (stepFrame s input).isPinching = false ∧ (stepFrame s input).isFlying = false ∧
      (stepFrame s input).ballVel = s.ballVel ∧
      (stepFrame s input).shotsFired = s.shotsFired) ∧
    (s.isPinching = true →
      (stepFrame s input).isPinching = false ∧ (stepFrame s input).isFlying = false ∧
      (stepFrame s input).ballPos = s.anchor ∧
      (stepFrame s input).ballVel = s.ballVel ∧
      (stepFrame s input).shotsFired = s.shotsFired) := by
  constructor
  · intro hpin
    unfold stepFrame capturePhase physicsPhase dragPhase
    simp only [hlock, hfly, hpin]
    norm_num
    split_ifs <;> simp
  · intro hpin
    unfold stepFrame capturePhase physicsPhase dragPhase
    simp only [hlock, hfly, hpin]
    norm_num
    split_ifs <;> simp

def c7S : GameState := { initState 1000 600 [] with isAiThinking := true, isPinching := true }

def c7In : FrameInput := ⟨some (500, 380), 1 / 100, 100⟩

/-- Witness for C7 on a concrete locked mid-drag state. -/
theorem lock_suppresses_drag_witness :
    (c7S.isAiThinking = true ∧ c7S.isFlying = false) ∧
    ((c7S.isPinching = false →
      (stepFrame c7S c7In).isPinching = false ∧ (stepFrame c7S c7In).isFlying = false ∧
      (stepFrame c7S c7In).ballVel = c7S.ballVel ∧
      (stepFrame c7S c7In).shotsFired = c7S.shotsFired) ∧
     (c7S.isPinching = true →
      (stepFrame c7S c7In).isPinching = false ∧ (stepFrame c7S c7In).isFlying = false ∧
      (stepFrame c7S c7In).ballPos = c7S.anchor ∧
      (stepFrame c7S c7In).ballVel = c7S.ballVel ∧
      (stepFrame c7S c7In).shotsFired = c7S.shotsFired)) :=
  ⟨⟨rfl, rfl⟩, lock_suppresses_drag c7S c7In rfl rfl⟩

/-- The squared power ratio used by the release handler equals the square of
the source's powerRatio = min(stretch / MAX_DRAG_DIST, 1). -/
theorem powerRatio_sq (q : ℚ) (hq : 0 ≤ q) :
    ((min (q / MAX_DRAG_DIST ^ 2) 1 : ℚ) : ℝ)
      = (min (Real.sqrt (q : ℝ) / ((MAX_DRAG_DIST : ℚ) : ℝ)) 1) ^ 2 := by
  have hqR : (0 : ℝ) ≤ (q : ℝ) := by exact_mod_cast hq
  have hM : ((MAX_DRAG_DIST : ℚ) : ℝ) = 180 := by norm_num [MAX_DRAG_DIST]
  have hcast : ((min (q / MAX_DRAG_DIST ^ 2) 1 : ℚ) : ℝ) = min ((q : ℝ) / 180 ^ 2) 1 := by
    push_cast [MAX_DRAG_DIST]
    norm_num
  rw [hcast, hM]
  rcases le_or_lt (q : ℝ) (180 ^ 2) with hle | hgt
  · have hsq : Real.sqrt (q : ℝ) ≤ 180 := by
      calc Real.sqrt (q : ℝ) ≤ Real.sqrt (180 ^ 2) := Real.sqrt_le_sqrt hle
        _ = 180 := Real.sqrt_sq (by norm_num)
    have e1 : min (Real.sqrt (q : ℝ) / 180) 1 = Real.sqrt (q : ℝ) / 180 :=
      min_eq_left ((div_le_one (by norm_num)).mpr hsq)
    have e2 : min ((q : ℝ) / 180 ^ 2) 1 = (q : ℝ) / 180 ^ 2 :=
      min_eq_left ((div_le_one (by norm_num)).mpr hle)
    rw [e1, e2, div_pow, Real.sq_sqrt hqR]
  · have hsq : (180 : ℝ) ≤ Real.sqrt (q : ℝ) := by
      have h2 := Real.sqrt_lt_sqrt (by norm_num : (0 : ℝ) ≤ (180 : ℝ) ^ 2) hgt
      rw [Real.sqrt_sq (by norm_num : (0 : ℝ) ≤ (180 : ℝ))] at h2
      exact h2.le
    have e1 : min (Real.sqrt (q : ℝ) / 180) 1 = 1 := by
      apply min_eq_right
      rw [le_div_iff₀ (by norm_num)]
      linarith
    have e2 : min ((q : ℝ) / 180 ^ 2) 1 = 1 := by
      apply min_eq_right
      rw [le_div_iff₀ (by norm_num)]
      linarith
    rw [e1, e2]
    norm_num

/-- C8: on release of a drag, a stretch at or below the 30 px threshold is a
non-shot — the ball snaps back to the anchor with zero velocity; beyond it
the launch velocity is (anchor − ball) scaled by the multiplier
MIN_FORCE_MULT + (MAX_FORCE_MULT − MIN_FORCE_MULT) · p² with
p = min(stretch / MAX_DRAG_DIST, 1). -/
theorem release_spec (s : GameState) (input : FrameInput)
    (hlock : s.isAiThinking = false) (hpin : s.isPinching = true)
    (hfly : s.isFlying = false)
    (hrel : input.hand = none ∨ PINCH_THRESHOLD ≤ input.pinchDist)
    (hvel : s.ballVel = (0, 0)) :
    (((s.anchor.1 - s.ballPos.1) ^ 2 + (s.anchor.2 - s.ballPos.2) ^ 2 ≤ 30 ^ 2) →
      (dragPhase s input).isPinching = false ∧ (dragPhase s input).isFlying = false ∧
      (dragPhase s input).ballPos = s.anchor ∧ (dragPhase s input).ballVel = (0, 0) ∧
      (dragPhase s input).shotsFired = s.shotsFired) ∧
    ((30 ^ 2 < (s.anchor.1 - s.ballPos.1) ^ 2 + (s.anchor.2 - s.ballPos.2) ^ 2) →
      (dragPhase s input).isPinching = false ∧ (dragPhase s input).isFlying = true ∧
      (dragPhase s input).ballVel =
        ((s.anchor.1 - s.ballPos.1) * (MIN_FORCE_MULT + (MAX_FORCE_MULT - MIN_FORCE_MULT) *
            min (((s.anchor.1 - s.ballPos.1) ^ 2 + (s.anchor.2 - s.ballPos.2) ^ 2)
              / MAX_DRAG_DIST ^ 2) 1),
         (s.anchor.2 - s.ballPos.2) * (MIN_FORCE_MULT + (MAX_FORCE_MULT - MIN_FORCE_MULT) *
            min (((s.anchor.1 - s.ballPos.1) ^ 2 + (s.anchor.2 - s.ballPos.2) ^ 2)
              / MAX_DRAG_DIST ^ 2) 1)) ∧
      ((MIN_FORCE_MULT + (MAX_FORCE_MULT - MIN_FORCE_MULT) *
          min (((s.anchor.1 - s.ballPos.1) ^ 2 + (s.anchor.2 - s.ballPos.2) ^ 2)
            / MAX_DRAG_DIST ^ 2) 1 : ℚ) : ℝ)
        = ((MIN_FORCE_MULT : ℚ) : ℝ) + (((MAX_FORCE_MULT : ℚ) : ℝ) - ((MIN_FORCE_MULT : ℚ) : ℝ)) *
            (min (Real.sqrt (((s.anchor.1 - s.ballPos.1) ^ 2
                + (s.anchor.2 - s.ballPos.2) ^ 2 : ℚ) : ℝ)
              / ((MAX_DRAG_DIST : ℚ) : ℝ)) 1) ^ 2 ∧
      (dragPhase s input).shotsFired = s.shotsFired + 1) := by
  have hb1 : ¬ (s.isAiThinking = false ∧ input.hand.isSome = true ∧
      input.pinchDist < PINCH_THRESHOLD ∧ s.isFlying = false) := by
    rintro ⟨_, hsome, hpd, _⟩
    rcases hrel with h | h
    · rw [h] at hsome
      simp at hsome
    · exact absurd hpd (not_lt.mpr h)
  have hb2 : s.isPinching = true ∧ (input.hand.isSome = false ∨
      PINCH_THRESHOLD ≤ input.pinchDist ∨ s.isAiThinking = true) := by
    refine ⟨hpin, ?_⟩
    rcases hrel with h | h
    · exact Or.inl (by rw [h]; rfl)
    · exact Or.inr (Or.inl h)
  have hlockb : ¬ (s.isAiThinking = true) := by simp [hlock]
  have hmain : dragPhase s input =
      (if (s.anchor.1 - s.ballPos.1) ^ 2 + (s.anchor.2 - s.ballPos.2) ^ 2 > 30 ^ 2 then
        { s with
          isPinching := false, isFlying := true, flightStart := input.now,
          ballVel := ((s.anchor.1 - s.ballPos.1) * (MIN_FORCE_MULT +
              (MAX_FORCE_MULT - MIN_FORCE_MULT) *
                min (((s.anchor.1 - s.ballPos.1) ^ 2 + (s.anchor.2 - s.ballPos.2) ^ 2)
                  / MAX_DRAG_DIST ^ 2) 1),
            (s.anchor.2 - s.ballPos.2) * (MIN_FORCE_MULT +
              (MAX_FORCE_MULT - MIN_FORCE_MULT) *
                min (((s.anchor.1 - s.ballPos.1) ^ 2 + (s.anchor.2 - s.ballPos.2) ^ 2)
                  / MAX_DRAG_DIST ^ 2) 1)),
          shotsFired := s.shotsFired + 1 }
      else { s with isPinching := false, ballPos := s.anchor }) := by
    simp only [dragPhase]
    rw [if_neg hb1, if_pos hb2, if_neg hlockb]
  constructor
  · intro hsmall
    have hns : ¬ ((s.anchor.1 - s.ballPos.1) ^ 2 + (s.anchor.2 - s.ballPos.2) ^ 2 > 30 ^ 2) :=
      not_lt.mpr hsmall
    rw [hmain, if_neg hns]
    exact ⟨rfl, hfly, rfl, hvel, rfl⟩
  · intro hbig
    rw [hmain, if_pos hbig]
    refine ⟨rfl, rfl, rfl, ?_, rfl⟩
    have hmin := powerRatio_sq
      ((s.anchor.1 - s.ballPos.1) ^ 2 + (s.anchor.2 - s.ballPos.2) ^ 2) (by positivity)
    rw [← hmin]
    push_cast
    ring

def c8S : GameState := { initState 1000 600 [] with isPinching := true, ballPos := (500, 480) }

def c8In : FrameInput := ⟨none, 1, 200⟩

/-- Witness for C8 at a concrete 100 px draw. -/
theorem release_spec_witness :
    (c8S.isAiThinking = false ∧ c8S.isPinching = true ∧ c8S.isFlying = false ∧
     (c8In.hand = none ∨ PINCH_THRESHOLD ≤ c8In.pinchDist) ∧ c8S.ballVel = (0, 0)) ∧
    ((((c8S.anchor.1 - c8S.ballPos.1) ^ 2 + (c8S.anchor.2 - c8S.ballPos.2) ^ 2 ≤ 30 ^ 2) →
      (dragPhase c8S c8In).isPinching = false ∧ (dragPhase c8S c8In).isFlying = false ∧
      (dragPhase c8S c8In).ballPos = c8S.anchor ∧ (dragPhase c8S c8In).ballVel = (0, 0) ∧
      (dragPhase c8S c8In).shotsFired = c8S.shotsFired) ∧
     ((30 ^ 2 < (c8S.anchor.1 - c8S.ballPos.1) ^ 2 + (c8S.anchor.2 - c8S.ballPos.2) ^ 2) →
      (dragPhase c8S c8In).isPinching = false ∧ (dragPhase c8S c8In).isFlying = true ∧
      (dragPhase c8S c8In).ballVel =
        ((c8S.anchor.1 - c8S.ballPos.1) * (MIN_FORCE_MULT + (MAX_FORCE_MULT - MIN_FORCE_MULT) *
            min (((c8S.anchor.1 - c8S.ballPos.1) ^ 2 + (c8S.anchor.2 - c8S.ballPos.2) ^ 2)
              / MAX_DRAG_DIST ^ 2) 1),
         (c8S.anchor.2 - c8S.ballPos.2) * (MIN_FORCE_MULT + (MAX_FORCE_MULT - MIN_FORCE_MULT) *
            min (((c8S.anchor.1 - c8S.ballPos.1) ^ 2 + (c8S.anchor.2 - c8S.ballPos.2) ^ 2)
              / MAX_DRAG_DIST ^ 2) 1)) ∧
      ((MIN_FORCE_MULT + (MAX_FORCE_MULT - MIN_FORCE_MULT) *
          min (((c8S.anchor.1 - c8S.ballPos.1) ^ 2 + (c8S.anchor.2 - c8S.ballPos.2) ^ 2)
            / MAX_DRAG_DIST ^ 2) 1 : ℚ) : ℝ)
        = ((MIN_FORCE_MULT : ℚ) : ℝ) + (((MAX_FORCE_MULT : ℚ) : ℝ) - ((MIN_FORCE_MULT : ℚ) : ℝ)) *
            (min (Real.sqrt (((c8S.anchor.1 - c8S.ballPos.1) ^ 2
                + (c8S.anchor.2 - c8S.ballPos.2) ^ 2 : ℚ) : ℝ)
              / ((MAX_DRAG_DIST : ℚ) : ℝ)) 1) ^ 2 ∧
      (dragPhase c8S c8In).shotsFired = c8S.shotsFired + 1)) :=
  ⟨⟨rfl, rfl, rfl, Or.inl rfl, rfl⟩, release_spec c8S c8In rfl rfl rfl (Or.inl rfl) rfl⟩

/-! ## C9: friction decay of the projectile speed -/

def speedSqOf (s : GameState) : ℚ := s.ballVel.1 ^ 2 + s.ballVel.2 ^ 2

theorem subStepLoop_wall_sticky (w : ℚ) (L : List Bubble) (total : ℕ) :
    ∀ (k : ℕ) (pos vel : ℚ × ℚ),
      (subStepLoop w L total k pos vel true).2.2.2 = true := by
  intro k
  induction k with
  | zero => intro pos vel; rfl
  | succ k ihk =>
    intro pos vel
    simp only [subStepLoop]
    split_ifs <;> simp [ihk]

theorem subStepLoop_no_wall_vel (w : ℚ) (L : List Bubble) (total : ℕ) :
    ∀ (k : ℕ) (pos vel : ℚ × ℚ),
      (subStepLoop w L total k pos vel false).2.2.2 = false →
      (subStepLoop w L total k pos vel false).2.1 = vel := by
  intro k
  induction k with
  | zero => intro pos vel _; rfl
  | succ k ihk =>
    intro pos vel hw
    simp only [subStepLoop] at hw ⊢
    split_ifs at hw ⊢ <;>
      first
        | rfl
        | (simp_all [subStepLoop_wall_sticky]; done)
        | (simp only [show (false || decide (pos.1 + vel.1 / (total : ℚ) < BUBBLE_RADIUS ∨
              pos.1 + vel.1 / (total : ℚ) > w - BUBBLE_RADIUS)) = false from by
                simp_all [decide_eq_false_iff_not]] at hw ⊢
           exact ihk _ _ hw)

/-- A flight frame with no wall reflection, no collision, no 5-second cutoff
and no fall off the bottom (so the claim's side conditions hold). -/
def flightFrameFreeB (s : GameState) (input : FrameInput) : Bool :=
  s.isFlying && !s.isPinching && decide (input.now - s.flightStart ≤ 5000) &&
  (let r := subStepLoop s.width s.bubblesL (ceilSteps (speedSqOf s))
      (ceilSteps (speedSqOf s)) s.ballPos s.ballVel false
   !r.2.2.1 && !r.2.2.2 && decide (r.1.2 ≤ s.height))

def flightRunFreeB : GameState → List FrameInput → Bool
  | _, [] => true
  | s, i :: rest => flightFrameFreeB s i && flightRunFreeB (stepFrame s i) rest

/-- A run of flight frames none of which bounces, collides, times out or
falls out of the board. -/
def FlightRunFree (s : GameState) (inputs : List FrameInput) : Prop :=
  flightRunFreeB s inputs = true

theorem flightFrame_step (s : GameState) (input : FrameInput)
    (hf : flightFrameFreeB s input = true) :
    (stepFrame s input).ballVel
      = (s.ballVel.1 * FRICTION, (s.ballVel.2 + GRAVITY) * FRICTION) := by
  simp only [flightFrameFreeB, Bool.and_eq_true, Bool.not_eq_true', decide_eq_true_eq] at hf
  obtain ⟨⟨⟨hfly, hpin⟩, htime⟩, ⟨hcol, hwall⟩, hbot⟩ := hf
  have hdrag : dragPhase s input = s := by
    unfold dragPhase
    have h1 : ¬ (s.isAiThinking = false ∧ input.hand.isSome = true ∧
        input.pinchDist < PINCH_THRESHOLD ∧ s.isFlying = false) := by
      rintro ⟨_, _, _, hc⟩
      rw [hfly] at hc
      exact absurd hc (by simp)
    have h2 : ¬ (s.isPinching = true ∧ (input.hand.isSome = false ∨
        PINCH_THRESHOLD ≤ input.pinchDist ∨ s.isAiThinking = true)) := by
      rintro ⟨hc, _⟩
      rw [hpin] at hc
      exact absurd hc (by simp)
    have h3 : ¬ (s.isFlying = false ∧ s.isPinching = false) := by
      rintro ⟨hc, _⟩
      rw [hfly] at hc
      exact absurd hc (by simp)
    rw [if_neg h1, if_neg h2, if_neg h3]
  have hvel := subStepLoop_no_wall_vel s.width s.bubblesL (ceilSteps (speedSqOf s))
    (ceilSteps (speedSqOf s)) s.ballPos s.ballVel hwall
  have hnc : ¬ ((subStepLoop s.width s.bubblesL (ceilSteps (speedSqOf s))
      (ceilSteps (speedSqOf s)) s.ballPos s.ballVel false).2.2.1 = true) := by
    rw [hcol]
    simp
  have hnt : ¬ (input.now - s.flightStart > 5000) := not_lt.mpr htime
  have hnb : ¬ ((subStepLoop s.width s.bubblesL (ceilSteps (speedSqOf s))
      (ceilSteps (speedSqOf s)) s.ballPos s.ballVel false).1.2 > s.height) :=
    not_lt.mpr hbot
  simp only [speedSqOf] at hvel hnc hnb
  have hphys : physicsPhase s input = { s with
      ballPos := (subStepLoop s.width s.bubblesL
        (ceilSteps (s.ballVel.1 ^ 2 + s.ballVel.2 ^ 2))
        (ceilSteps (s.ballVel.1 ^ 2 + s.ballVel.2 ^ 2)) s.ballPos s.ballVel false).1,
      ballVel := (((subStepLoop s.width s.bubblesL
          (ceilSteps (s.ballVel.1 ^ 2 + s.ballVel.2 ^ 2))
          (ceilSteps (s.ballVel.1 ^ 2 + s.ballVel.2 ^ 2)) s.ballPos s.ballVel
            false).2.1).1 * FRICTION,
        ((subStepLoop s.width s.bubblesL
          (ceilSteps (s.ballVel.1 ^ 2 + s.ballVel.2 ^ 2))
          (ceilSteps (s.ballVel.1 ^ 2 + s.ballVel.2 ^ 2)) s.ballPos s.ballVel
            false).2.1).2 * FRICTION + GRAVITY * FRICTION) } := by
    unfold physicsPhase
    rw [if_pos hfly, if_neg hnt]
    simp only []
    rw [if_neg hnc, if_neg hnb]
    ring_nf
  unfold stepFrame
  rw [hdrag, hphys]
  unfold capturePhase
  split_ifs <;> dsimp only <;> rw [hvel] <;> ring_nf

theorem speedSqOf_nonneg (s : GameState) : 0 ≤ speedSqOf s := by
  unfold speedSqOf
  positivity

theorem speedSq_run (inputs : List FrameInput) :
    ∀ s : GameState, flightRunFreeB s inputs = true →
      speedSqOf (List.foldl stepFrame s inputs)
        = speedSqOf s * (FRICTION ^ 2) ^ inputs.length := by
  induction inputs with
  | nil => intro s _; simp
  | cons i rest ih =>
    intro s hf
    simp only [flightRunFreeB, Bool.and_eq_true] at hf
    obtain ⟨h1, h2⟩ := hf
    have hstep := flightFrame_step s i h1
    have hsq : speedSqOf (stepFrame s i) = speedSqOf s * FRICTION ^ 2 := by
      simp only [speedSqOf, hstep, GRAVITY]
      ring
    rw [List.foldl_cons, ih _ h2, hsq, List.length_cons]
    ring

/-- C9: a projectile in flight with zero gravity and friction 0.998, over a run of
physics frames with no wall bounce, no bubble collision, no 5-second timeout and no
exit through the bottom, has speed after N frames equal to the initial speed times
FRICTION^N: friction is applied multiplicatively to both velocity components once
per frame, after the sub-step loop. -/
theorem flight_speed_decay (s : GameState) (inputs : List FrameInput)
    (hf : FlightRunFree s inputs) :
    Real.sqrt ((speedSqOf (List.foldl stepFrame s inputs) : ℝ))
      = Real.sqrt ((speedSqOf s : ℝ)) * (FRICTION : ℝ) ^ inputs.length := by
  have hq := speedSq_run inputs s hf
  have hr : ((speedSqOf (List.foldl stepFrame s inputs) : ℚ) : ℝ)
      = ((speedSqOf s : ℚ) : ℝ) * (((FRICTION : ℚ) : ℝ) ^ inputs.length) ^ 2 := by
    rw [hq]
    push_cast
    ring
  have hs0 : (0 : ℝ) ≤ ((speedSqOf s : ℚ) : ℝ) := by
    exact_mod_cast speedSqOf_nonneg s
  have hF0 : (0 : ℝ) ≤ ((FRICTION : ℚ) : ℝ) ^ inputs.length := by
    apply pow_nonneg
    rw [FRICTION]
    norm_num
  rw [hr, Real.sqrt_mul hs0, Real.sqrt_sq hF0]

def c9S : GameState :=
  { initState 1000 600 [] with isFlying := true, ballVel := (0, -10) }

def c9In : List FrameInput := [⟨none, 1, 100⟩, ⟨none, 1, 120⟩]

set_option maxRecDepth 400000 in
attribute [local semireducible] Rat.mul Rat.add Rat.sub Rat.inv Rat.ofScientific in
theorem flight_speed_decay_witness :
    FlightRunFree c9S c9In ∧
      Real.sqrt ((speedSqOf (List.foldl stepFrame c9S c9In) : ℝ))
        = Real.sqrt ((speedSqOf c9S : ℝ)) * (FRICTION : ℝ) ^ 2 :=
  ⟨by show flightRunFreeB c9S c9In = true; decide,
   flight_speed_decay c9S c9In (by show flightRunFreeB c9S c9In = true; decide)⟩

/-- A validated local target candidate passed to the advisory service
(TargetCandidate in geminiService.ts; the free-text description is dropped). -/
structure TargetCandidate where
  id : ℕ
  color : BubbleColor
  size : ℕ
  row : ℤ
  col : ℤ
  pointsPerBubble : ℤ
deriving DecidableEq

/-- The finitely many hint messages the service can produce, abstracting the
literal strings of geminiService.ts. -/
inductive HintMessage where
  | apiKeyMissing
  | noClearShots
  | invalidCoordinates
  | parseFailureMsg
  | unreachable
  | fallbackSelect (color : BubbleColor) (row : ℤ)
  | aiMessage
deriving DecidableEq

/-- The StrategicHint returned by the service: optional target coordinates and
recommended color (absent fields model the message-only hints). -/
structure StrategicHint where
  message : HintMessage
  targetRow : Option ℤ
  targetCol : Option ℤ
  recommendedColor : Option BubbleColor
deriving DecidableEq

/-- What the external round trip did, as seen by the code after the await:
outer catch (API unreachable), JSON.parse throw, parsed-but-invalid fields,
or a fully valid parsed response. -/
inductive ServiceOutcome where
  | apiError
  | parseFailure
  | invalidFields
  | valid (message : HintMessage) (row col : ℤ) (color : BubbleColor)
deriving DecidableEq

def targetScore (t : TargetCandidate) : ℤ := (t.size : ℤ) * t.pointsPerBubble

/-- The JS sort comparator (scoreB - scoreA) || (rowA - rowB) as a total
Boolean order: a comes no later than b iff a's total potential score is
higher, or equal with a no lower on the board. -/
def targetLe (a b : TargetCandidate) : Bool :=
  decide (targetScore b < targetScore a) ||
    (decide (targetScore a = targetScore b) && decide (a.row ≤ b.row))

/-- Local heuristic fallback: sort by total potential score (size × value)
then height, take the first; with no candidates return a message-only hint. -/
def getBestLocalTarget (validTargets : List TargetCandidate) (msg : HintMessage) :
    StrategicHint :=
  match validTargets.mergeSort targetLe with
  | best :: _ =>
      { message := HintMessage.fallbackSelect best.color best.row,
        targetRow := some best.row, targetCol := some best.col,
        recommendedColor := some best.color }
  | [] =>
      { message := msg, targetRow := none, targetCol := none,
        recommendedColor := none }

/-- getStrategicHint: with no client the key-missing hint; a valid parsed
response passes through; every error path resolves to the local fallback. -/
def getStrategicHint (hasClient : Bool) (outcome : ServiceOutcome)
    (validTargets : List TargetCandidate) : StrategicHint :=
  if hasClient = false then
    { message := HintMessage.apiKeyMissing, targetRow := none,
      targetCol := none, recommendedColor := none }
  else
    match outcome with
    | ServiceOutcome.valid m r c col =>
        { message := m, targetRow := some r, targetCol := some c,
          recommendedColor := some col }
    | ServiceOutcome.invalidFields =>
        getBestLocalTarget validTargets HintMessage.invalidCoordinates
    | ServiceOutcome.parseFailure =>
        getBestLocalTarget validTargets HintMessage.parseFailureMsg
    | ServiceOutcome.apiError =>
        getBestLocalTarget validTargets HintMessage.unreachable

theorem targetLe_trans (a b c : TargetCandidate)
    (hab : targetLe a b = true) (hbc : targetLe b c = true) : targetLe a c = true := by
  simp only [targetLe, Bool.or_eq_true, Bool.and_eq_true, decide_eq_true_eq] at *
  omega

theorem targetLe_total (a b : TargetCandidate) :
    (targetLe a b || targetLe b a) = true := by
  simp only [targetLe, Bool.or_eq_true, Bool.and_eq_true, decide_eq_true_eq]
  omega

theorem getBestLocalTarget_best (targets : List TargetCandidate) (msg : HintMessage)
    (hne : targets ≠ []) :
    ∃ best ∈ targets,
      getBestLocalTarget targets msg =
        { message := HintMessage.fallbackSelect best.color best.row,
          targetRow := some best.row, targetCol := some best.col,
          recommendedColor := some best.color } ∧
      (∀ t ∈ targets, targetScore t ≤ targetScore best) ∧
      (∀ t ∈ targets, targetScore t = targetScore best → best.row ≤ t.row) := by
  have hperm := List.mergeSort_perm targets targetLe
  have hsorted : (targets.mergeSort targetLe).Pairwise (fun a b => targetLe a b = true) := by
    apply List.sorted_mergeSort
    · exact fun a b c => targetLe_trans a b c
    · exact targetLe_total
  match hm : targets.mergeSort targetLe with
  | [] =>
    exfalso
    apply hne
    have h2 : targets.Perm [] := by
      rw [← hm]
      exact hperm.symm
    exact h2.eq_nil
  | best :: rest =>
    refine ⟨best, ?_, ?_, ?_, ?_⟩
    · have : best ∈ targets.mergeSort targetLe := by
        rw [hm]; exact List.mem_cons_self _ _
      exact hperm.mem_iff.mp this
    · unfold getBestLocalTarget
      rw [hm]
    · intro t ht
      rcases (hperm.mem_iff.mpr ht : t ∈ targets.mergeSort targetLe) with h
      rw [hm] at h
      rcases List.mem_cons.mp h with h1 | h2
      · rw [h1]
      · rw [hm] at hsorted
        have hle := (List.pairwise_cons.mp hsorted).1 t h2
        simp only [targetLe, Bool.or_eq_true, Bool.and_eq_true, decide_eq_true_eq] at hle
        omega
    · intro t ht hsc
      rcases (hperm.mem_iff.mpr ht : t ∈ targets.mergeSort targetLe) with h
      rw [hm] at h
      rcases List.mem_cons.mp h with h1 | h2
      · rw [h1]
      · rw [hm] at hsorted
        have hle := (List.pairwise_cons.mp hsorted).1 t h2
        simp only [targetLe, Bool.or_eq_true, Bool.and_eq_true, decide_eq_true_eq] at hle
        omega

/-- C5: when the external service is unreachable or returns unparseable data
(outer API error, JSON parse failure, or invalid coordinate fields), the call
still resolves with a hint; with a non-empty candidate list the hint's target
row/column and recommended color are those of a candidate maximizing cluster
size × per-bubble point value, ties broken by the lowest row, and the message
is the reduced-confidence fallback message. -/
theorem fallback_best (o : ServiceOutcome) (targets : List TargetCandidate)
    (ho : o = ServiceOutcome.apiError ∨ o = ServiceOutcome.parseFailure ∨
      o = ServiceOutcome.invalidFields)
    (hne : targets ≠ []) :
    ∃ best ∈ targets,
      (getStrategicHint true o targets).targetRow = some best.row ∧
      (getStrategicHint true o targets).targetCol = some best.col ∧
      (getStrategicHint true o targets).recommendedColor = some best.color ∧
      (getStrategicHint true o targets).message
        = HintMessage.fallbackSelect best.color best.row ∧
      (∀ t ∈ targets, targetScore t ≤ targetScore best) ∧
      (∀ t ∈ targets, targetScore t = targetScore best → best.row ≤ t.row) := by
  have key : ∀ msg : HintMessage,
      ∃ best ∈ targets,
        (getBestLocalTarget targets msg).targetRow = some best.row ∧
        (getBestLocalTarget targets msg).targetCol = some best.col ∧
        (getBestLocalTarget targets msg).recommendedColor = some best.color ∧
        (getBestLocalTarget targets msg).message
          = HintMessage.fallbackSelect best.color best.row ∧
        (∀ t ∈ targets, targetScore t ≤ targetScore best) ∧
        (∀ t ∈ targets, targetScore t = targetScore best → best.row ≤ t.row) := by
    intro msg
    obtain ⟨best, hmem, heq, hmax, hrow⟩ := getBestLocalTarget_best targets msg hne
    exact ⟨best, hmem, by rw [heq], by rw [heq], by rw [heq], by rw [heq],
      hmax, hrow⟩
  rcases ho with h | h | h <;> rw [h] <;>
    simp only [getStrategicHint, Bool.true_eq_false, if_false] <;> exact key _

def c5Targets : List TargetCandidate :=
  [⟨1, BubbleColor.red, 4, 3, 2, 100⟩,
   ⟨2, BubbleColor.orange, 3, 1, 5, 500⟩,
   ⟨3, BubbleColor.blue, 10, 0, 7, 150⟩,
   ⟨4, BubbleColor.orange, 3, 4, 6, 500⟩]

theorem fallback_best_witness :
    c5Targets ≠ [] ∧
    ∃ best ∈ c5Targets,
      (getStrategicHint true ServiceOutcome.apiError c5Targets).targetRow
        = some best.row ∧
      (getStrategicHint true ServiceOutcome.apiError c5Targets).targetCol
        = some best.col ∧
      (getStrategicHint true ServiceOutcome.apiError c5Targets).recommendedColor
        = some best.color ∧
      (getStrategicHint true ServiceOutcome.apiError c5Targets).message
        = HintMessage.fallbackSelect best.color best.row ∧
      (∀ t ∈ c5Targets, targetScore t ≤ targetScore best) ∧
      (∀ t ∈ c5Targets, targetScore t = targetScore best → best.row ≤ t.row) :=
  ⟨by decide,
   fallback_best ServiceOutcome.apiError c5Targets (Or.inl rfl) (by decide)⟩
